import Mathlib

/-!
# med-sum backend: ownership and insight-polling contract

A shallow embedding of `backend/internal/db` (the store) and
`backend/internal/httpapi` (the handlers and the auth middleware).

* The PostgreSQL database behind `pgxpool.Pool` is a record of three tables
  (lists of rows).  A statement can also fail for a reason outside the tables
  (connection lost, constraint, malformed value): `Pool.fault` says which
  statements the server rejects, and the store methods turn that into the
  `err != nil` results the handlers check.
* Every store method records the statement it issues in `Pool.log`, so that
  "is never called" is a statement about the log.
* A handler is a function from the server and the request to the response
  written and the server afterwards.
* The JWT library, the file system and `path/filepath` are not part of the
  repository; the functions used from them are fields of `Deps`.
-/

namespace MedSum

/-! ## Data model (`internal/db`) -/

/-- A `time.Time` / `timestamptz` value, as a count of nanoseconds since the Unix
epoch. -/
abbrev Time := Nat

/-- Go struct `db.User` (users.go), with one more field: handleGetPatientInsights
(server.go) reads `user.PatientInsights` as a `*string`, which users.go does not
declare. -/
structure User where
  ID : String
  PhoneNumber : String
  FullName : Option String
  CreatedAt : Time
  LastLoginAt : Option Time
  /-- Modelled from the spec: the optional precomputed patient-insights HTML of
  the user; the declaration of this field is missing from users.go. -/
  PatientInsights : Option String
deriving DecidableEq, Repr

/-- Go struct `db.Document` (documents.go). -/
structure Document where
  ID : String
  UserID : String
  OriginalName : String
  ContentType : String
  StoragePath : String
  ExtractedMarkdown : String
  Status : String
  UploadedAt : Time
  UpdatedAt : Time
deriving DecidableEq, Repr

/-- Go struct `db.Insight` (insights.go). `DetailsJSON` is a `json.RawMessage`,
nil when the column is NULL. -/
structure Insight where
  DocumentID : String
  UserID : String
  HTMLInsights : String
  Status : String
  ErrorMessage : Option String
  DetailsJSON : Option String
  GeneratedAt : Option Time
  UpdatedAt : Option Time
deriving DecidableEq, Repr

/-- A row of table `users`, with the columns the statements of users.go name and
the stored patient insights. -/
structure UserRow where
  id : String
  phone_number : String
  full_name : Option String
  created_at : Time
  last_login_at : Option Time
  /-- Modelled from the spec: the optional precomputed patient-insights HTML blob
  kept on the user; no statement of users.go names this column. -/
  patient_insights : Option String
deriving DecidableEq, Repr

/-- A row of table `documents`. `extracted_markdown` is nullable (the listing
statement reads it through `COALESCE`); the other columns are scanned into Go
strings and times directly. -/
structure DocumentRow where
  id : String
  user_id : String
  original_name : String
  content_type : String
  storage_path : String
  extracted_markdown : Option String
  status : String
  uploaded_at : Time
  updated_at : Time
deriving DecidableEq, Repr

/-- A row of table `insights`, with the columns `GetInsightByDocumentID` reads.
The table has no error-message column. -/
structure InsightRow where
  document_id : String
  user_id : String
  html_insights : String
  status : String
  details_json : Option String
  generated_at : Option Time
  updated_at : Option Time
deriving DecidableEq, Repr

/-- The SQL statements of the store, with their arguments. -/
inductive Query where
  | upsertUserByPhone (phone : String) (fullName : Option String)
  | getUserByID (id : String)
  | createDocument (userID originalName contentType storagePath : String)
  | listDocumentsByUser (userID : String)
  | deleteDocumentByIDAndUser (docID userID : String)
  | getDocumentByIDAndUser (docID userID : String)
  | getInsightByDocumentID (docID : String)
deriving DecidableEq, Repr

/-- Errors of the pgx driver: the sentinel `pgx.ErrNoRows`, or any other error. -/
inductive PgError where
  | ErrNoRows
  | other (msg : String)
deriving DecidableEq, Repr

/-- The database behind `pgxpool.Pool`: the three tables, the statements the
server fails (`fault`), the values the server assigns to defaulted columns
(`genID` of the insert counter `seq`, and the clock `now`), and the log of
statements issued so far. -/
structure Pool where
  users : List UserRow
  documents : List DocumentRow
  insights : List InsightRow
  fault : Query → Option String
  genID : Nat → String
  seq : Nat
  now : Time
  log : List Query

/-- Go struct `db.Store` (db.go). -/
structure Store where
  pool : Pool

/-- The pool after statement `q` was sent: `q` is appended to the log. -/
def Pool.record (p : Pool) (q : Query) : Pool :=
  { p with log := p.log ++ [q] }

/-- Model of `pool.QueryRow(ctx, q, args...).Scan(...)`: the statement fails with the
server's error, or yields the first of the rows it selects, or `pgx.ErrNoRows`
when it selects none. -/
def Pool.QueryRow {ρ : Type} (p : Pool) (q : Query) (selected : List ρ) : Except PgError ρ :=
  match p.fault q with
  | some msg => .error (.other msg)
  | none =>
    match selected with
    | [] => .error .ErrNoRows
    | r :: _ => .ok r

/-- GetDocumentByIDAndUser (insights.go): the document with this id owned by
`userID`, or `(nil, nil)` when there is none. The statement does not select
`extracted_markdown`, so that field keeps its zero value. -/
def Store.GetDocumentByIDAndUser (s : Store) (docID userID : String) :
    Except PgError (Option Document) × Store :=
  let q := Query.getDocumentByIDAndUser docID userID
  let s1 : Store := { pool := s.pool.record q }
  let selected := (s.pool.documents.filter
      (fun r => r.id == docID && r.user_id == userID)).map
    (fun r => ({ ID := r.id, UserID := r.user_id, OriginalName := r.original_name,
                 ContentType := r.content_type, StoragePath := r.storage_path,
                 ExtractedMarkdown := "", Status := r.status,
                 UploadedAt := r.uploaded_at, UpdatedAt := r.updated_at } : Document))
  match s.pool.QueryRow q selected with
  | .error .ErrNoRows => (.ok none, s1)
  | .error e => (.error e, s1)
  | .ok d => (.ok (some d), s1)

/-- GetInsightByDocumentID (insights.go): the insight of a document, or `(nil, nil)`
when there is none. `ErrorMessage` is always left nil: the table has no such
column. -/
def Store.GetInsightByDocumentID (s : Store) (docID : String) :
    Except PgError (Option Insight) × Store :=
  let q := Query.getInsightByDocumentID docID
  let s1 : Store := { pool := s.pool.record q }
  let selected := (s.pool.insights.filter (fun r => r.document_id == docID)).map
    (fun r => ({ DocumentID := r.document_id, UserID := r.user_id,
                 HTMLInsights := r.html_insights, Status := r.status,
                 ErrorMessage := none, DetailsJSON := r.details_json,
                 GeneratedAt := r.generated_at, UpdatedAt := r.updated_at } : Insight))
  match s.pool.QueryRow q selected with
  | .error .ErrNoRows => (.ok none, s1)
  | .error e => (.error e, s1)
  | .ok ins => (.ok (some { ins with ErrorMessage := none }), s1)

/-- Go `append(docs, d)` on a slice that may be nil (`none`): the result is never nil. -/
def goAppend {α : Type} (docs : Option (List α)) (d : α) : Option (List α) :=
  some (docs.getD [] ++ [d])

/-- CreateDocument (documents.go): inserts a row with status `uploaded`; the server
fills `id`, `uploaded_at` and `updated_at`, and `extracted_markdown` stays NULL.
The row returned is the row inserted. -/
def Store.CreateDocument (s : Store)
    (userID originalName contentType storagePath : String) :
    Except PgError Document × Store :=
  let q := Query.createDocument userID originalName contentType storagePath
  let row : DocumentRow :=
    { id := s.pool.genID s.pool.seq, user_id := userID, original_name := originalName,
      content_type := contentType, storage_path := storagePath,
      extracted_markdown := none, status := "uploaded",
      uploaded_at := s.pool.now, updated_at := s.pool.now }
  match s.pool.fault q with
  | some msg => (.error (.other msg), { pool := s.pool.record q })
  | none =>
    (.ok { ID := row.id, UserID := row.user_id, OriginalName := row.original_name,
           ContentType := row.content_type, StoragePath := row.storage_path,
           ExtractedMarkdown := "", Status := row.status,
           UploadedAt := row.uploaded_at, UpdatedAt := row.updated_at },
     { pool := { s.pool.record q with
                 documents := s.pool.documents ++ [row], seq := s.pool.seq + 1 } })

/-- ListDocumentsByUser (documents.go): the documents of a user, latest upload
first. `docs` starts as a nil slice and grows by `append` once per row. -/
def Store.ListDocumentsByUser (s : Store) (userID : String) :
    Except PgError (Option (List Document)) × Store :=
  let q := Query.listDocumentsByUser userID
  let s1 : Store := { pool := s.pool.record q }
  match s.pool.fault q with
  | some msg => (.error (.other msg), s1)
  | none =>
    let rows := List.insertionSort (fun a b : DocumentRow => b.uploaded_at ≤ a.uploaded_at)
      (s.pool.documents.filter (fun r => r.user_id == userID))
    let docs : Option (List Document) := rows.foldl
      (fun docs r => goAppend docs
        { ID := r.id, UserID := r.user_id, OriginalName := r.original_name,
          ContentType := r.content_type, StoragePath := r.storage_path,
          ExtractedMarkdown := r.extracted_markdown.getD "", Status := r.status,
          UploadedAt := r.uploaded_at, UpdatedAt := r.updated_at })
      none
    (.ok docs, s1)

/-- DeleteDocumentByIDAndUser (documents.go): deletes the rows with this id and
owner; true when `RowsAffected() > 0`. A failed statement changes no row. -/
def Store.DeleteDocumentByIDAndUser (s : Store) (docID userID : String) :
    Except PgError Bool × Store :=
  let q := Query.deleteDocumentByIDAndUser docID userID
  match s.pool.fault q with
  | some msg => (.error (.other msg), { pool := s.pool.record q })
  | none =>
    let rowsAffected := s.pool.documents.countP
      (fun r => r.id == docID && r.user_id == userID)
    (.ok (decide (rowsAffected > 0)),
     { pool := { s.pool.record q with
                 documents := s.pool.documents.filter
                   (fun r => !(r.id == docID && r.user_id == userID)) } })

/-! ## HTTP responses and JSON (`internal/httpapi`) -/

/-- JSON values as `encoding/json` produces them. A `time.Time` is written as an
RFC 3339 string; it is kept as its own leaf. -/
inductive Json where
  | null
  | str (s : String)
  | time (t : Time)
  | arr (items : List Json)
  | obj (fields : List (String × Json))

/-- What a handler wrote after the status line. -/
inductive Body where
  | empty
  | text (s : String)
  | json (v : Json)

/-- The response a handler wrote. -/
structure Response where
  StatusCode : Nat
  ContentType : String
  Body : Body

/-- Go `http.Error(w, msg, code)`: plain text, the message and a newline. -/
def httpError (msg : String) (code : Nat) : Response :=
  { StatusCode := code, ContentType := "text/plain; charset=utf-8", Body := .text (msg ++ "\n") }

/-- Go `w.WriteHeader(code)` with nothing written after it. -/
def writeHeaderOnly (code : Nat) : Response :=
  { StatusCode := code, ContentType := "", Body := .empty }

/-- writeJSON (server.go): `v` is the encoding of the value passed, `none` for a
nil interface. -/
def writeJSON (status : Nat) (v : Option Json) : Response :=
  { StatusCode := status, ContentType := "application/json",
    Body := match v with
      | none => .empty
      | some j => .json j }

/-- Go struct `insightResponse` (server.go). -/
structure insightResponse where
  DocumentID : String
  Status : String
  InsightsHTML : Option String
  ErrorMessage : Option String
deriving DecidableEq, Repr

/-- A pointer field tagged `omitempty`: left out when nil. -/
def omitemptyField (key : String) (v : Option String) : List (String × Json) :=
  match v with
  | none => []
  | some x => [(key, .str x)]

/-- The JSON object `encoding/json` writes for an `insightResponse`. -/
def insightResponse.toJson (r : insightResponse) : Json :=
  .obj ([("document_id", .str r.DocumentID), ("status", .str r.Status)]
        ++ omitemptyField "insights_html" r.InsightsHTML
        ++ omitemptyField "error_message" r.ErrorMessage)

/-- The JSON object `encoding/json` writes for a `db.Document`. -/
def Document.toJson (d : Document) : Json :=
  .obj [("id", .str d.ID), ("user_id", .str d.UserID),
        ("original_name", .str d.OriginalName), ("content_type", .str d.ContentType),
        ("storage_path", .str d.StoragePath),
        ("extracted_markdown", .str d.ExtractedMarkdown), ("status", .str d.Status),
        ("uploaded_at", .time d.UploadedAt), ("updated_at", .time d.UpdatedAt)]

/-- Go struct `httpapi.Server`, without the mux. -/
structure Server where
  db : Store
  jwtSecret : String

/-- An uploaded file part: `header.Filename`, `header.Header.Get("Content-Type")`
and the bytes. -/
structure FilePart where
  Filename : String
  ContentType : String
  Content : List Nat
deriving DecidableEq, Repr

/-- A parsed `multipart/form-data` body: text fields and file parts, by field name. -/
structure MultipartForm where
  Value : List (String × String)
  File : List (String × FilePart)
deriving DecidableEq, Repr

/-- Go struct `loginRequest` (server.go). -/
structure loginRequest where
  PhoneNumber : String
  FullName : Option String
deriving DecidableEq, Repr

/-- The parts of `*http.Request` the handlers read. `Authorization` is the header
(`none` when the request has none); `Form` is what `ParseMultipartForm` yields
(`none` when it fails); `ctxUserID` is the value under `userIDContextKey` in the
request context; `LoginBody` is what `json.NewDecoder(r.Body).Decode` yields for
a `loginRequest` (`none` when it fails). -/
structure Request where
  Method : String
  Path : String
  Authorization : Option String
  Form : Option MultipartForm
  ctxUserID : Option String
  LoginBody : Option loginRequest := none
deriving DecidableEq, Repr

/-- userIDFromContext (jwt.go). -/
def userIDFromContext (r : Request) : String × Bool :=
  match r.ctxUserID with
  | none => ("", false)
  | some id => (id, true)

/-- The JSON `encoding/json` writes for a `[]db.Document`: `null` for a nil slice,
an array otherwise. -/
def documentsToJson (docs : Option (List Document)) : Json :=
  match docs with
  | none => .null
  | some ds => .arr (ds.map Document.toJson)

/-! ## Session tokens (jwt.go) -/

/-- Go struct `httpapi.Claims`: the user id and the registered claims used. -/
structure Claims where
  UserID : String
  IssuedAt : Option Time
  ExpiresAt : Option Time
deriving DecidableEq, Repr

/-- What `jwt.ParseWithClaims` returns on success: the claims and the `Valid` flag. -/
structure Token where
  Claims : Claims
  Valid : Bool
deriving DecidableEq, Repr

/-- Functions of libraries and of the operating system that the handlers call:
`jwt.ParseWithClaims` (token text and key; it checks signature and expiry),
`os.MkdirAll`, `os.Create`, `(*os.File).ReadFrom` (each `none` on success, the
error otherwise) and `filepath.Join`. -/
structure Deps where
  ParseWithClaims : String → String → Except String Token
  MkdirAll : String → Option String
  Create : String → Option String
  ReadFrom : String → List Nat → Option String
  Join : String → String → String

/-- parseToken (jwt.go). -/
def parseToken (deps : Deps) (s : Server) (tokenStr : String) : Except String Claims :=
  match deps.ParseWithClaims tokenStr s.jwtSecret with
  | .error err => .error err
  | .ok token =>
    if !token.Valid then .error "invalid token" else .ok token.Claims

/-- The text before and after the first space, if there is a space. -/
def cutSpace : List Char → Option (List Char × List Char)
  | [] => none
  | c :: cs =>
    if c = ' ' then some ([], cs)
    else
      match cutSpace cs with
      | none => none
      | some (a, b) => some (c :: a, b)

/-- Go `strings.SplitN(s, " ", 2)`: one part when `s` has no space, else the text
before the first space and the text after it. -/
def SplitN (s : String) : List String :=
  match cutSpace s.data with
  | none => [s]
  | some (a, b) => [String.mk a, String.mk b]

/-- The rune comparison inside Go `strings.EqualFold` when at least one rune is
ASCII: equal runes; or both ASCII, differing only in letter case; or an ASCII
letter and the one non-ASCII rune of its fold orbit (the Kelvin sign for `k`,
the long s for `s`). Two different non-ASCII runes need the Unicode case tables
and do not occur when one string is ASCII: they compare unequal here. -/
def foldEqRune (sr tr : Char) : Bool :=
  if tr = sr then true
  else
    let lo := if tr.toNat < sr.toNat then tr else sr
    let hi := if tr.toNat < sr.toNat then sr else tr
    if hi.toNat < 128 then
      decide (65 ≤ lo.toNat ∧ lo.toNat ≤ 90 ∧ hi.toNat = lo.toNat + 32)
    else
      decide (((lo = 'K' ∨ lo = 'k') ∧ hi.toNat = 0x212A) ∨
              ((lo = 'S' ∨ lo = 's') ∧ hi.toNat = 0x17F))

/-- Rune-by-rune `EqualFold` on the runes of both strings. -/
def equalFoldRunes : List Char → List Char → Bool
  | [], [] => true
  | sr :: s, tr :: t => foldEqRune sr tr && equalFoldRunes s t
  | _, _ => false

/-- Go `strings.EqualFold(s, t)` for an ASCII `t`. -/
def EqualFold (s t : String) : Bool :=
  equalFoldRunes s.data t.data

/-- A handler bound to the server: the response written and the server after. -/
abbrev HandlerFunc := Server → Request → Response × Server

/-- withAuth (jwt.go): requires a bearer token and puts its user id into the
request context before calling `next`. -/
def withAuth (deps : Deps) (next : HandlerFunc) : HandlerFunc :=
  fun s r =>
    let auth := r.Authorization.getD ""
    if auth = "" then
      (httpError "missing Authorization header" 401, s)
    else
      match SplitN auth with
      | [p0, p1] =>
        if !EqualFold p0 "Bearer" then
          (httpError "invalid Authorization header" 401, s)
        else
          match parseToken deps s p1 with
          | .error _ => (httpError "invalid token" 401, s)
          | .ok claims => next s { r with ctxUserID := some claims.UserID }
      | _ => (httpError "invalid Authorization header" 401, s)

/-! ## Document handlers (server.go) -/

/-- Go `r.FormFile("file")`: the first file part under the field name. -/
def FormFile (form : MultipartForm) (key : String) : Option FilePart :=
  (form.File.find? (fun kv => kv.1 == key)).map (fun kv => kv.2)

/-- handleUploadDocument (server.go): POST /documents. -/
def handleUploadDocument (deps : Deps) (s : Server) (r : Request) : Response × Server :=
  match userIDFromContext r with
  | (_, false) => (httpError "unauthorized" 401, s)
  | (userID, true) =>
    match r.Form with
    | none => (httpError "failed to parse form" 400, s)
    | some form =>
      match FormFile form "file" with
      | none => (httpError "file field is required" 400, s)
      | some header =>
        -- Local disk storage for dev
        let uploadsDir := "uploads"
        match deps.MkdirAll uploadsDir with
        | some _ => (httpError "failed to create uploads directory" 500, s)
        | none =>
          let filename := header.Filename
          let storagePath := deps.Join uploadsDir filename
          match deps.Create storagePath with
          | some _ => (httpError "failed to save file" 500, s)
          | none =>
            match deps.ReadFrom storagePath header.Content with
            | some _ => (httpError "failed to write file" 500, s)
            | none =>
              match s.db.CreateDocument userID header.Filename header.ContentType
                  storagePath with
              | (.error _, db1) => (httpError "internal error" 500, { s with db := db1 })
              | (.ok doc, db1) =>
                (writeJSON 201 (some doc.toJson), { s with db := db1 })

/-- handleListDocuments (server.go): GET /documents. -/
def handleListDocuments (s : Server) (r : Request) : Response × Server :=
  match userIDFromContext r with
  | (_, false) => (httpError "unauthorized" 401, s)
  | (userID, true) =>
    match s.db.ListDocumentsByUser userID with
    | (.error _, db1) => (httpError "internal error" 500, { s with db := db1 })
    | (.ok docs, db1) =>
      (writeJSON 200 (some (documentsToJson docs)), { s with db := db1 })

/-- handleDocuments (server.go): POST uploads, GET lists. -/
def handleDocuments (deps : Deps) (s : Server) (r : Request) : Response × Server :=
  if r.Method = "POST" then handleUploadDocument deps s r
  else if r.Method = "GET" then handleListDocuments s r
  else (writeHeaderOnly 405, s)

/-- handleDeleteDocument (server.go): DELETE /documents/{id}. -/
def handleDeleteDocument (s : Server) (r : Request) (docID : String) : Response × Server :=
  match userIDFromContext r with
  | (_, false) => (httpError "unauthorized" 401, s)
  | (userID, true) =>
    match s.db.DeleteDocumentByIDAndUser docID userID with
    | (.error _, db1) => (httpError "internal error" 500, { s with db := db1 })
    | (.ok false, db1) =>
      -- Either doc not found, or not owned by this user
      (httpError "not found" 404, { s with db := db1 })
    | (.ok true, db1) =>
      -- No body for delete success.
      (writeHeaderOnly 204, { s with db := db1 })

/-- handleGetDocumentInsight (server.go): GET /documents/{id}/insight. -/
def handleGetDocumentInsight (s : Server) (r : Request) (docID : String) :
    Response × Server :=
  match userIDFromContext r with
  | (_, false) => (httpError "unauthorized" 401, s)
  | (userID, true) =>
    -- 1) Ensure document belongs to this user
    match s.db.GetDocumentByIDAndUser docID userID with
    | (.error _, db1) => (httpError "internal error" 500, { s with db := db1 })
    | (.ok none, db1) => (httpError "not found" 404, { s with db := db1 })
    | (.ok (some _), db1) =>
      -- 2) Try to fetch insight for this document
      match db1.GetInsightByDocumentID docID with
      | (.error _, db2) => (httpError "internal error" 500, { s with db := db2 })
      | (.ok none, db2) =>
        (writeJSON 200 (some (insightResponse.toJson
            { DocumentID := docID, Status := "processing",
              InsightsHTML := none, ErrorMessage := none })),
         { s with db := db2 })
      | (.ok (some ins), db2) =>
        let resp : insightResponse :=
          { DocumentID := docID, Status := ins.Status,
            InsightsHTML := none, ErrorMessage := none }
        let resp : insightResponse :=
          if ins.Status = "completed" then
            { resp with InsightsHTML := some ins.HTMLInsights }
          else if ins.Status = "failed" ∧ ins.ErrorMessage ≠ none then
            { resp with ErrorMessage := ins.ErrorMessage }
          else resp
        (writeJSON 200 (some resp.toJson), { s with db := db2 })

/-! ## Users and login (users.go, jwt.go, server.go) -/

/-- What `Scan` of the five columns `id, phone_number, full_name, created_at,
last_login_at` leaves in a `db.User`: every other field keeps its zero value. -/
def UserRow.scan (u : UserRow) : User :=
  { ID := u.id, PhoneNumber := u.phone_number, FullName := u.full_name,
    CreatedAt := u.created_at, LastLoginAt := u.last_login_at, PatientInsights := none }

/-- UpsertUserByPhone (users.go): `INSERT ... ON CONFLICT (phone_number) DO UPDATE`.
With no row of this phone number a row is inserted (the server fills `id` and
`created_at`; the stored insights start NULL); otherwise the rows of this phone
number only get a new `last_login_at`. The row returned is the inserted or the
updated one. -/
def Store.UpsertUserByPhone (s : Store) (phone : String) (fullName : Option String) :
    Except PgError User × Store :=
  let q := Query.upsertUserByPhone phone fullName
  match s.pool.fault q with
  | some msg => (.error (.other msg), { pool := s.pool.record q })
  | none =>
    match s.pool.users.find? (fun u => u.phone_number == phone) with
    | some u =>
      (.ok ({ u with last_login_at := some s.pool.now } : UserRow).scan,
       { pool := { s.pool.record q with
                   users := s.pool.users.map (fun x =>
                     if x.phone_number == phone then
                       { x with last_login_at := some s.pool.now }
                     else x) } })
    | none =>
      let row : UserRow :=
        { id := s.pool.genID s.pool.seq, phone_number := phone, full_name := fullName,
          created_at := s.pool.now, last_login_at := some s.pool.now,
          patient_insights := none }
      (.ok row.scan,
       { pool := { s.pool.record q with
                   users := s.pool.users ++ [row], seq := s.pool.seq + 1 } })

/-- GetUserByID (users.go): the user with this id; `pgx.ErrNoRows` is an error
here like any other. -/
def Store.GetUserByID (s : Store) (id : String) : Except PgError User × Store :=
  let q := Query.getUserByID id
  let s1 : Store := { pool := s.pool.record q }
  let selected := (s.pool.users.filter (fun u => u.id == id)).map UserRow.scan
  match s.pool.QueryRow q selected with
  | .error e => (.error e, s1)
  | .ok u => (.ok u, s1)

/-- Go `unicode.IsSpace`: the code points with the property White_Space. -/
def IsSpace (c : Char) : Bool :=
  (9 ≤ c.toNat && c.toNat ≤ 13) || c.toNat == 0x20 || c.toNat == 0x85 ||
  c.toNat == 0xA0 || c.toNat == 0x1680 || (0x2000 ≤ c.toNat && c.toNat ≤ 0x200A) ||
  c.toNat == 0x2028 || c.toNat == 0x2029 || c.toNat == 0x202F || c.toNat == 0x205F ||
  c.toNat == 0x3000

/-- Go `strings.TrimSpace`: the text without its leading and trailing white space. -/
def TrimSpace (s : String) : String :=
  String.mk ((((s.data.dropWhile IsSpace).reverse).dropWhile IsSpace).reverse)

/-- Go `time.Second`. -/
def Second : Time := 1000000000

/-- Go `time.Hour`. -/
def Hour : Time := 3600 * Second

/-- Go `jwt.NewNumericDate(t)`: `t.Truncate(jwt.TimePrecision)`, the precision being
one second. -/
def NewNumericDate (t : Time) : Time :=
  t - t % Second

/-- The signing half of the JWT library:
`jwt.NewWithClaims(jwt.SigningMethodHS256, claims).SignedString(key)`. -/
structure Issuer where
  SignedString : Claims → String → Except String String

/-- generateToken (jwt.go). `now k` is what the call number `k` of `time.Now()`
returns: the claims literal calls it once for `IssuedAt` and once more for
`ExpiresAt`. -/
def generateToken (issuer : Issuer) (s : Server) (now : Nat → Time) (userID : String) :
    Except String String :=
  let claims : Claims :=
    { UserID := userID,
      IssuedAt := some (NewNumericDate (now 0)),
      ExpiresAt := some (NewNumericDate (now 1 + 24 * Hour)) } -- token valid for 1 day
  issuer.SignedString claims s.jwtSecret

/-- Go struct `loginResponse` (server.go). -/
structure loginResponse where
  Token : String
  User : User
deriving DecidableEq, Repr

/-- A `*time.Time` field tagged `omitempty`: left out when nil. -/
def omitemptyTime (key : String) (v : Option Time) : List (String × Json) :=
  match v with
  | none => []
  | some t => [(key, .time t)]

/-- The JSON object `encoding/json` writes for the fields of `db.User` that
users.go declares. -/
def User.toJson (u : User) : Json :=
  .obj ([("id", .str u.ID), ("phone_number", .str u.PhoneNumber)]
        ++ omitemptyField "full_name" u.FullName
        ++ [("created_at", .time u.CreatedAt)]
        ++ omitemptyTime "last_login_at" u.LastLoginAt)

/-- The JSON object `encoding/json` writes for a `loginResponse`. -/
def loginResponse.toJson (r : loginResponse) : Json :=
  .obj [("token", .str r.Token), ("user", r.User.toJson)]

/-- handleLogin (server.go): POST /login. -/
def handleLogin (issuer : Issuer) (now : Nat → Time) (s : Server) (r : Request) :
    Response × Server :=
  if r.Method ≠ "POST" then (writeHeaderOnly 405, s)
  else
    match r.LoginBody with
    | none => (httpError "invalid JSON body" 400, s)
    | some req =>
      if TrimSpace req.PhoneNumber = "" then
        (httpError "phone_number is required" 400, s)
      else
        match s.db.UpsertUserByPhone req.PhoneNumber req.FullName with
        | (.error _, db1) => (httpError "internal error" 500, { s with db := db1 })
        | (.ok user, db1) =>
          match generateToken issuer s now user.ID with
          | .error _ => (httpError "internal error" 500, { s with db := db1 })
          | .ok token =>
            (writeJSON 200 (some (loginResponse.toJson { Token := token, User := user })),
             { s with db := db1 })

/-- Go struct `patientInsightResponse` (server.go). -/
structure patientInsightResponse where
  Status : String
  InsightsHTML : Option String
deriving DecidableEq, Repr

/-- The JSON object `encoding/json` writes for a `patientInsightResponse`. -/
def patientInsightResponse.toJson (r : patientInsightResponse) : Json :=
  .obj ([("status", .str r.Status)] ++ omitemptyField "insights_html" r.InsightsHTML)

/-- handleGetPatientInsights (server.go): GET /user/insights. -/
def handleGetPatientInsights (s : Server) (r : Request) : Response × Server :=
  if r.Method ≠ "GET" then (writeHeaderOnly 405, s)
  else
    match userIDFromContext r with
    | (_, false) => (httpError "unauthorized" 401, s)
    | (userID, true) =>
      match s.db.GetUserByID userID with
      | (.error _, db1) => (httpError "internal error" 500, { s with db := db1 })
      | (.ok user, db1) =>
        let resp : patientInsightResponse := { Status := "none", InsightsHTML := none }
        let resp : patientInsightResponse :=
          if user.PatientInsights ≠ none ∧ user.PatientInsights ≠ some "" then
            { Status := "completed", InsightsHTML := user.PatientInsights }
          else resp
        (writeJSON 200 (some resp.toJson), { s with db := db1 })

/-- Login requests served one after the other, each with its own clock readings:
the responses in order and the server after the last one. -/
def serveLogins (issuer : Issuer) (s : Server) :
    List (Request × (Nat → Time)) → List Response × Server
  | [] => ([], s)
  | ev :: rest =>
    ((handleLogin issuer ev.2 s ev.1).1 ::
       (serveLogins issuer (handleLogin issuer ev.2 s ev.1).2 rest).1,
     (serveLogins issuer (handleLogin issuer ev.2 s ev.1).2 rest).2)

/-! ## Concrete stores and requests used to exercise the theorems -/

/-- A pool with the given documents and insights, on which no statement fails. -/
def samplePool (docs : List DocumentRow) (ins : List InsightRow) : Pool :=
  { users := [], documents := docs, insights := ins, fault := fun _ => none,
    genID := fun n => "doc-" ++ toString n, seq := 0, now := 1000, log := [] }

/-- A server over `samplePool`. -/
def sampleServer (docs : List DocumentRow) (ins : List InsightRow) : Server :=
  { db := { pool := samplePool docs ins }, jwtSecret := "secret" }

/-- A document row `d1` owned by `alice`. -/
def aliceDoc : DocumentRow :=
  { id := "d1", user_id := "alice", original_name := "report.pdf",
    content_type := "application/pdf", storage_path := "uploads/report.pdf",
    extracted_markdown := none, status := "uploaded", uploaded_at := 10, updated_at := 10 }

/-- An insight row for document `d1` with the given status. -/
def insightOfD1 (status : String) : InsightRow :=
  { document_id := "d1", user_id := "alice", html_insights := "<p>ok</p>",
    status := status, details_json := none, generated_at := none, updated_at := none }

/-- A request whose context carries the given user id. -/
def requestAs (method userID : String) : Request :=
  { Method := method, Path := "/documents", Authorization := none, Form := none,
    ctxUserID := some userID }

/-- A request with the given `Authorization` header and nothing in its context. -/
def requestWithHeader (method auth : String) : Request :=
  { Method := method, Path := "/documents", Authorization := some auth, Form := none,
    ctxUserID := none }

/-- Library and system functions for the examples: the only token that verifies is
`T` under the key `secret`, and it belongs to user `u1`; the file system never
fails. -/
def sampleDeps : Deps :=
  { ParseWithClaims := fun tokenStr key =>
      if tokenStr = "T" ∧ key = "secret" then
        .ok { Claims := { UserID := "u1", IssuedAt := some 0, ExpiresAt := some 86400 },
              Valid := true }
      else .error "token is malformed",
    MkdirAll := fun _ => none,
    Create := fun _ => none,
    ReadFrom := fun _ _ => none,
    Join := fun dir name => dir ++ "/" ++ name }

/-- A PDF file part named `report.pdf`. -/
def reportPart : FilePart :=
  { Filename := "report.pdf", ContentType := "application/pdf", Content := [37, 80, 68, 70] }

/-- An upload request carrying the header `Bearer T`, a form with a text field
`user_id` = `mallory` and the given file parts, and `mallory` in its context. -/
def uploadRequest (parts : List (String × FilePart)) : Request :=
  { Method := "POST", Path := "/documents", Authorization := some "Bearer T",
    Form := some { Value := [("user_id", "mallory")], File := parts },
    ctxUserID := some "mallory" }

/-- The functions of `sampleDeps`, but copying the bytes to disk fails. -/
def fullDiskDeps : Deps :=
  { sampleDeps with ReadFrom := fun _ _ => some "no space left on device" }

/-- The functions of `sampleDeps`, but the library hands the token `T` back with
`Valid` false and no error. -/
def flaggedTokenDeps : Deps :=
  { ParseWithClaims := fun tokenStr key =>
      if tokenStr = "T" ∧ key = "secret" then
        .ok { Claims := { UserID := "u1", IssuedAt := some 0, ExpiresAt := some 86400 },
              Valid := false }
      else .error "token is malformed",
    MkdirAll := sampleDeps.MkdirAll,
    Create := sampleDeps.Create,
    ReadFrom := sampleDeps.ReadFrom,
    Join := sampleDeps.Join }

/-- An ASCII letter whose fold orbit has no non-ASCII rune (every letter but
`k` and `s`), by code point. -/
def plainLetter (t : Char) : Bool :=
  decide (((65 ≤ t.toNat ∧ t.toNat ≤ 90) ∨ (97 ≤ t.toNat ∧ t.toNat ≤ 122)) ∧
    t.toNat ≠ 75 ∧ t.toNat ≠ 107 ∧ t.toNat ≠ 83 ∧ t.toNat ≠ 115)

/-- A pool with the given users and no documents, on which no statement fails. -/
def userPool (users : List UserRow) : Pool :=
  { users := users, documents := [], insights := [], fault := fun _ => none,
    genID := fun n => "user-" ++ toString n, seq := 0, now := 2000, log := [] }

/-- A server over `userPool`. -/
def userServer (users : List UserRow) : Server :=
  { db := { pool := userPool users }, jwtSecret := "secret" }

/-- A user row with id `u-carol` whose stored patient insights are a non-empty
HTML text. -/
def carolRow : UserRow :=
  { id := "u-carol", phone_number := "+15551234567", full_name := some "Carol",
    created_at := 5, last_login_at := some 7,
    patient_insights := some "<p>summary</p>" }

/-- A POST /login request whose body decodes to the given phone number. -/
def loginRequestFor (phone : String) : Request :=
  { Method := "POST", Path := "/login", Authorization := none, Form := none,
    ctxUserID := none, LoginBody := some { PhoneNumber := phone, FullName := none } }

/-- A signer that never fails: the token text names the user and the key. -/
def sampleIssuer : Issuer :=
  { SignedString := fun claims key => .ok ("jwt:" ++ claims.UserID ++ ":" ++ key) }

/-- A clock that shows the same instant at every reading. -/
def steadyClock : Nat → Time :=
  fun _ => 1700000000 * Second

/-- A clock whose first reading is one nanosecond before a full second and whose
later readings are that full second. -/
def clockAcrossSecond : Nat → Time :=
  fun k => if k = 0 then 1700000000 * Second + 999999999 else 1700000001 * Second

/-! ## Facts about the store methods -/

/-- The ownership query finds nothing when no row has this id and this owner. -/
theorem GetDocumentByIDAndUser_absent (s : Store) (docID userID : String)
    (hfault : s.pool.fault (.getDocumentByIDAndUser docID userID) = none)
    (hown : ∀ d ∈ s.pool.documents, d.id = docID → d.user_id ≠ userID) :
    s.GetDocumentByIDAndUser docID userID =
      (.ok none, { pool := s.pool.record (.getDocumentByIDAndUser docID userID) }) := by
  have hnil : s.pool.documents.filter
      (fun r => r.id == docID && r.user_id == userID) = [] := by
    rw [List.filter_eq_nil_iff]
    intro d hd
    simp only [Bool.and_eq_true, beq_iff_eq, not_and]
    exact hown d hd
  simp [Store.GetDocumentByIDAndUser, Pool.QueryRow, hfault, hnil]

/-- The ownership query returns a document when a row has this id and this owner. -/
theorem GetDocumentByIDAndUser_present (s : Store) (docID userID : String)
    (hfault : s.pool.fault (.getDocumentByIDAndUser docID userID) = none)
    (hex : ∃ d ∈ s.pool.documents, d.id = docID ∧ d.user_id = userID) :
    ∃ doc, s.GetDocumentByIDAndUser docID userID =
      (.ok (some doc), { pool := s.pool.record (.getDocumentByIDAndUser docID userID) }) := by
  obtain ⟨d, hd, hid, hu⟩ := hex
  have hmem : d ∈ s.pool.documents.filter
      (fun r => r.id == docID && r.user_id == userID) := by
    simp [List.mem_filter, hd, hid, hu]
  cases hf : s.pool.documents.filter (fun r => r.id == docID && r.user_id == userID) with
  | nil => rw [hf] at hmem; cases hmem
  | cons x xs =>
    refine ⟨{ ID := x.id, UserID := x.user_id, OriginalName := x.original_name,
              ContentType := x.content_type, StoragePath := x.storage_path,
              ExtractedMarkdown := "", Status := x.status,
              UploadedAt := x.uploaded_at, UpdatedAt := x.updated_at }, ?_⟩
    simp only [Store.GetDocumentByIDAndUser, Pool.QueryRow, hfault, hf, List.map_cons]

/-- The insight query finds nothing when no insight row names the document. -/
theorem GetInsightByDocumentID_absent (s : Store) (docID : String)
    (hfault : s.pool.fault (.getInsightByDocumentID docID) = none)
    (hno : ∀ i ∈ s.pool.insights, i.document_id ≠ docID) :
    s.GetInsightByDocumentID docID =
      (.ok none, { pool := s.pool.record (.getInsightByDocumentID docID) }) := by
  have hnil : s.pool.insights.filter (fun r => r.document_id == docID) = [] := by
    rw [List.filter_eq_nil_iff]
    intro i hi
    simp only [beq_iff_eq]
    exact hno i hi
  simp [Store.GetInsightByDocumentID, Pool.QueryRow, hfault, hnil]

/-- The insight query returns the insight row of the document, with a nil error
message. -/
theorem GetInsightByDocumentID_present (s : Store) (docID : String) (row : InsightRow)
    (hfault : s.pool.fault (.getInsightByDocumentID docID) = none)
    (hrow : row ∈ s.pool.insights) (hid : row.document_id = docID)
    (huniq : ∀ i ∈ s.pool.insights, i.document_id = docID → i = row) :
    s.GetInsightByDocumentID docID =
      (.ok (some { DocumentID := row.document_id, UserID := row.user_id,
                   HTMLInsights := row.html_insights, Status := row.status,
                   ErrorMessage := none, DetailsJSON := row.details_json,
                   GeneratedAt := row.generated_at, UpdatedAt := row.updated_at }),
       { pool := s.pool.record (.getInsightByDocumentID docID) }) := by
  have hmem : row ∈ s.pool.insights.filter (fun r => r.document_id == docID) := by
    simp [List.mem_filter, hrow, hid]
  cases hf : s.pool.insights.filter (fun r => r.document_id == docID) with
  | nil => rw [hf] at hmem; cases hmem
  | cons x xs =>
    have hx : x ∈ s.pool.insights.filter (fun r => r.document_id == docID) := by
      rw [hf]; exact List.mem_cons_self x xs
    rw [List.mem_filter] at hx
    have hxr : x = row := huniq x hx.1 (by simpa using hx.2)
    subst hxr
    simp only [Store.GetInsightByDocumentID, Pool.QueryRow, hfault, hf, List.map_cons]

/-- Recording a statement changes neither the tables nor the faults. -/
theorem Pool.record_tables (p : Pool) (q : Query) :
    (p.record q).documents = p.documents ∧ (p.record q).insights = p.insights ∧
    (p.record q).users = p.users ∧ (p.record q).fault = p.fault ∧
    (p.record q).log = p.log ++ [q] := by
  simp [Pool.record]

/-! ## GET /documents/{id}/insight -/

/-- C1: for an authenticated caller and a document id that no row has, or that
only rows of other owners have, the insight endpoint answers 404 `not found`
(one and the same response in both cases), the only statement issued is the
ownership query (no insight lookup), and the answer is the same whatever the
insights table holds. The ownership query itself is assumed not to fail. -/
theorem insight_unowned_document_not_found (s : Server) (r : Request)
    (docID userID : String)
    (hctx : r.ctxUserID = some userID)
    (hfault : s.db.pool.fault (.getDocumentByIDAndUser docID userID) = none)
    (hown : ∀ d ∈ s.db.pool.documents, d.id = docID → d.user_id ≠ userID) :
    (handleGetDocumentInsight s r docID).1 = httpError "not found" 404 ∧
    (handleGetDocumentInsight s r docID).2.db.pool.log =
      s.db.pool.log ++ [.getDocumentByIDAndUser docID userID] ∧
    (∀ ins : List InsightRow,
      (handleGetDocumentInsight
        { s with db := { pool := { s.db.pool with insights := ins } } } r docID).1 =
      httpError "not found" 404) := by
  have key : ∀ s0 : Server,
      s0.db.pool.fault (.getDocumentByIDAndUser docID userID) = none →
      (∀ d ∈ s0.db.pool.documents, d.id = docID → d.user_id ≠ userID) →
      handleGetDocumentInsight s0 r docID =
        (httpError "not found" 404,
         { s0 with db := { pool := s0.db.pool.record (.getDocumentByIDAndUser docID userID) } }) := by
    intro s0 hf ho
    simp only [handleGetDocumentInsight, userIDFromContext, hctx,
      GetDocumentByIDAndUser_absent s0.db docID userID hf ho]
  refine ⟨?_, ?_, ?_⟩
  · rw [key s hfault hown]
  · rw [key s hfault hown]; simp [Pool.record]
  · intro ins
    have h := key { s with db := { pool := { s.db.pool with insights := ins } } } hfault hown
    rw [h]

/-- C1 at a concrete store: `bob` asks for the insight of `d1`, which `alice`
owns and which has a completed insight. -/
theorem insight_unowned_document_not_found_witness :
    (handleGetDocumentInsight (sampleServer [aliceDoc] [insightOfD1 "completed"])
        (requestAs "GET" "bob") "d1").1 = httpError "not found" 404 ∧
    (handleGetDocumentInsight (sampleServer [aliceDoc] [insightOfD1 "completed"])
        (requestAs "GET" "bob") "d1").2.db.pool.log =
      [] ++ [.getDocumentByIDAndUser "d1" "bob"] :=
  have h := insight_unowned_document_not_found
    (sampleServer [aliceDoc] [insightOfD1 "completed"]) (requestAs "GET" "bob") "d1" "bob"
    rfl rfl (by decide)
  ⟨h.1, h.2.1⟩

/-- The insight endpoint on a document the caller owns, when the ownership query
succeeds: the response is decided by what the insight query returns. -/
theorem handleGetDocumentInsight_owned (s : Server) (r : Request) (docID userID : String)
    (hctx : r.ctxUserID = some userID)
    (hf1 : s.db.pool.fault (.getDocumentByIDAndUser docID userID) = none)
    (hex : ∃ d ∈ s.db.pool.documents, d.id = docID ∧ d.user_id = userID) :
    (handleGetDocumentInsight s r docID).1 =
      match (Store.GetInsightByDocumentID
          { pool := s.db.pool.record (.getDocumentByIDAndUser docID userID) } docID).1 with
      | .error _ => httpError "internal error" 500
      | .ok none =>
        writeJSON 200 (some (insightResponse.toJson
          { DocumentID := docID, Status := "processing",
            InsightsHTML := none, ErrorMessage := none }))
      | .ok (some ins) =>
        writeJSON 200 (some (insightResponse.toJson
          (if ins.Status = "completed" then
            { DocumentID := docID, Status := ins.Status,
              InsightsHTML := some ins.HTMLInsights, ErrorMessage := none }
          else if ins.Status = "failed" ∧ ins.ErrorMessage ≠ none then
            { DocumentID := docID, Status := ins.Status,
              InsightsHTML := none, ErrorMessage := ins.ErrorMessage }
          else
            { DocumentID := docID, Status := ins.Status,
              InsightsHTML := none, ErrorMessage := none }))) := by
  obtain ⟨doc, hdoc⟩ := GetDocumentByIDAndUser_present s.db docID userID hf1 hex
  cases hq : Store.GetInsightByDocumentID
      { pool := s.db.pool.record (.getDocumentByIDAndUser docID userID) } docID with
  | mk out db2 =>
    cases out with
    | error e => simp only [handleGetDocumentInsight, userIDFromContext, hctx, hdoc, hq]
    | ok res =>
      cases res with
      | none => simp only [handleGetDocumentInsight, userIDFromContext, hctx, hdoc, hq]
      | some ins => simp only [handleGetDocumentInsight, userIDFromContext, hctx, hdoc, hq]

/-- C3: for a document the caller owns that has no insight row, the insight
endpoint answers 200 with exactly the fields `document_id` (the requested id)
and `status` = `processing`: no `insights_html`, no `error_message`. Both
statements are assumed not to fail. -/
theorem insight_processing_without_row (s : Server) (r : Request) (docID userID : String)
    (hctx : r.ctxUserID = some userID)
    (hf1 : s.db.pool.fault (.getDocumentByIDAndUser docID userID) = none)
    (hf2 : s.db.pool.fault (.getInsightByDocumentID docID) = none)
    (hex : ∃ d ∈ s.db.pool.documents, d.id = docID ∧ d.user_id = userID)
    (hno : ∀ i ∈ s.db.pool.insights, i.document_id ≠ docID) :
    (handleGetDocumentInsight s r docID).1 =
      { StatusCode := 200, ContentType := "application/json",
        Body := .json (.obj [("document_id", .str docID), ("status", .str "processing")]) } := by
  rw [handleGetDocumentInsight_owned s r docID userID hctx hf1 hex,
    GetInsightByDocumentID_absent
      ({ pool := s.db.pool.record (.getDocumentByIDAndUser docID userID) } : Store)
      docID hf2 hno]
  rfl

/-- C3 at a concrete store: `alice` polls her document `d1`, which has no insight. -/
theorem insight_processing_without_row_witness :
    (handleGetDocumentInsight (sampleServer [aliceDoc] []) (requestAs "GET" "alice") "d1").1 =
      { StatusCode := 200, ContentType := "application/json",
        Body := .json (.obj [("document_id", .str "d1"), ("status", .str "processing")]) } :=
  insight_processing_without_row (sampleServer [aliceDoc] []) (requestAs "GET" "alice")
    "d1" "alice" rfl rfl rfl ⟨aliceDoc, by decide, rfl, rfl⟩ (by decide)

/-- C4: for a document the caller owns whose insight row has status `completed`,
the insight endpoint answers 200 with `status` = `completed`, `insights_html`
equal to the stored HTML of that row, and no `error_message`. Both statements
are assumed not to fail; the row is the only insight row of the document. -/
theorem insight_completed_carries_html (s : Server) (r : Request) (docID userID : String)
    (row : InsightRow)
    (hctx : r.ctxUserID = some userID)
    (hf1 : s.db.pool.fault (.getDocumentByIDAndUser docID userID) = none)
    (hf2 : s.db.pool.fault (.getInsightByDocumentID docID) = none)
    (hex : ∃ d ∈ s.db.pool.documents, d.id = docID ∧ d.user_id = userID)
    (hrow : row ∈ s.db.pool.insights) (hid : row.document_id = docID)
    (huniq : ∀ i ∈ s.db.pool.insights, i.document_id = docID → i = row)
    (hst : row.status = "completed") :
    (handleGetDocumentInsight s r docID).1 =
      { StatusCode := 200, ContentType := "application/json",
        Body := .json (.obj [("document_id", .str docID), ("status", .str "completed"),
                             ("insights_html", .str row.html_insights)]) } := by
  rw [handleGetDocumentInsight_owned s r docID userID hctx hf1 hex,
    GetInsightByDocumentID_present
      ({ pool := s.db.pool.record (.getDocumentByIDAndUser docID userID) } : Store)
      docID row hf2 hrow hid huniq]
  simp [hst, writeJSON, insightResponse.toJson, omitemptyField]

/-- C4 at a concrete store: `alice` polls `d1`, whose insight is completed. -/
theorem insight_completed_carries_html_witness :
    (handleGetDocumentInsight (sampleServer [aliceDoc] [insightOfD1 "completed"])
        (requestAs "GET" "alice") "d1").1 =
      { StatusCode := 200, ContentType := "application/json",
        Body := .json (.obj [("document_id", .str "d1"), ("status", .str "completed"),
                             ("insights_html", .str "<p>ok</p>")]) } :=
  insight_completed_carries_html (sampleServer [aliceDoc] [insightOfD1 "completed"])
    (requestAs "GET" "alice") "d1" "alice" (insightOfD1 "completed") rfl rfl rfl
    ⟨aliceDoc, by decide, rfl, rfl⟩ (by decide) rfl (by decide) rfl

/-- C5: for a document the caller owns whose insight row has status `failed`, the
insight endpoint answers 200 with `status` = `failed` and no `insights_html`;
its `error_message` field is the error message of the insight the store
returned, present exactly when that insight has one. The insights table has no
error-message column, so the store returns none and the object written has the
two fields `document_id` and `status` only. Both statements are assumed not to
fail; the row is the only insight row of the document. -/
theorem insight_failed_reports_error (s : Server) (r : Request) (docID userID : String)
    (row : InsightRow)
    (hctx : r.ctxUserID = some userID)
    (hf1 : s.db.pool.fault (.getDocumentByIDAndUser docID userID) = none)
    (hf2 : s.db.pool.fault (.getInsightByDocumentID docID) = none)
    (hex : ∃ d ∈ s.db.pool.documents, d.id = docID ∧ d.user_id = userID)
    (hrow : row ∈ s.db.pool.insights) (hid : row.document_id = docID)
    (huniq : ∀ i ∈ s.db.pool.insights, i.document_id = docID → i = row)
    (hst : row.status = "failed") :
    (∃ ins : Insight,
      (s.db.GetInsightByDocumentID docID).1 = .ok (some ins) ∧
      (handleGetDocumentInsight s r docID).1 =
        writeJSON 200 (some (insightResponse.toJson
          { DocumentID := docID, Status := "failed",
            InsightsHTML := none, ErrorMessage := ins.ErrorMessage }))) ∧
    (handleGetDocumentInsight s r docID).1 =
      { StatusCode := 200, ContentType := "application/json",
        Body := .json (.obj [("document_id", .str docID), ("status", .str "failed")]) } := by
  have hresp := handleGetDocumentInsight_owned s r docID userID hctx hf1 hex
  rw [GetInsightByDocumentID_present
      ({ pool := s.db.pool.record (.getDocumentByIDAndUser docID userID) } : Store)
      docID row hf2 hrow hid huniq] at hresp
  refine ⟨⟨{ DocumentID := row.document_id, UserID := row.user_id,
              HTMLInsights := row.html_insights, Status := row.status,
              ErrorMessage := none, DetailsJSON := row.details_json,
              GeneratedAt := row.generated_at, UpdatedAt := row.updated_at }, ?_, ?_⟩, ?_⟩
  · rw [GetInsightByDocumentID_present s.db docID row hf2 hrow hid huniq]
  · rw [hresp]
    simp [hst]
  · rw [hresp]
    simp [hst, writeJSON, insightResponse.toJson, omitemptyField]

/-- C5 at a concrete store: `alice` polls `d1`, whose insight failed. -/
theorem insight_failed_reports_error_witness :
    (handleGetDocumentInsight (sampleServer [aliceDoc] [insightOfD1 "failed"])
        (requestAs "GET" "alice") "d1").1 =
      { StatusCode := 200, ContentType := "application/json",
        Body := .json (.obj [("document_id", .str "d1"), ("status", .str "failed")]) } :=
  (insight_failed_reports_error (sampleServer [aliceDoc] [insightOfD1 "failed"])
    (requestAs "GET" "alice") "d1" "alice" (insightOfD1 "failed") rfl rfl rfl
    ⟨aliceDoc, by decide, rfl, rfl⟩ (by decide) rfl (by decide) rfl).2

/-- C6: for a document the caller owns whose insight row has a status other than
`completed` and `failed`, the insight endpoint answers 200 with the stored
status unchanged and with neither `insights_html` nor `error_message`. Both
statements are assumed not to fail; the row is the only insight row of the
document. -/
theorem insight_other_status_passed_through (s : Server) (r : Request)
    (docID userID : String) (row : InsightRow)
    (hctx : r.ctxUserID = some userID)
    (hf1 : s.db.pool.fault (.getDocumentByIDAndUser docID userID) = none)
    (hf2 : s.db.pool.fault (.getInsightByDocumentID docID) = none)
    (hex : ∃ d ∈ s.db.pool.documents, d.id = docID ∧ d.user_id = userID)
    (hrow : row ∈ s.db.pool.insights) (hid : row.document_id = docID)
    (huniq : ∀ i ∈ s.db.pool.insights, i.document_id = docID → i = row)
    (hc : row.status ≠ "completed") (hfl : row.status ≠ "failed") :
    (handleGetDocumentInsight s r docID).1 =
      { StatusCode := 200, ContentType := "application/json",
        Body := .json (.obj [("document_id", .str docID), ("status", .str row.status)]) } := by
  rw [handleGetDocumentInsight_owned s r docID userID hctx hf1 hex,
    GetInsightByDocumentID_present
      ({ pool := s.db.pool.record (.getDocumentByIDAndUser docID userID) } : Store)
      docID row hf2 hrow hid huniq]
  simp [hc, hfl, writeJSON, insightResponse.toJson, omitemptyField]

/-- C6 at a concrete store: the insight of `d1` has the status `queued`. -/
theorem insight_other_status_passed_through_witness :
    (handleGetDocumentInsight (sampleServer [aliceDoc] [insightOfD1 "queued"])
        (requestAs "GET" "alice") "d1").1 =
      { StatusCode := 200, ContentType := "application/json",
        Body := .json (.obj [("document_id", .str "d1"), ("status", .str "queued")]) } :=
  insight_other_status_passed_through (sampleServer [aliceDoc] [insightOfD1 "queued"])
    (requestAs "GET" "alice") "d1" "alice" (insightOfD1 "queued") rfl rfl rfl
    ⟨aliceDoc, by decide, rfl, rfl⟩ (by decide) rfl (by decide) (by decide) (by decide)

/-! ## DELETE /documents/{id} -/

/-- The delete statement, when it does not fail: reports whether a row matched and
keeps exactly the rows that did not match. -/
theorem DeleteDocumentByIDAndUser_ok (s : Store) (docID userID : String)
    (hfault : s.pool.fault (.deleteDocumentByIDAndUser docID userID) = none) :
    s.DeleteDocumentByIDAndUser docID userID =
      (.ok (decide (s.pool.documents.countP
              (fun r => r.id == docID && r.user_id == userID) > 0)),
       { pool := { s.pool.record (.deleteDocumentByIDAndUser docID userID) with
                   documents := s.pool.documents.filter
                     (fun r => !(r.id == docID && r.user_id == userID)) } }) := by
  simp only [Store.DeleteDocumentByIDAndUser, hfault]

/-- The delete endpoint, when the statement does not fail: 204 if a row matched,
404 otherwise, and the rows kept are those that did not match. -/
theorem handleDeleteDocument_ok (s : Server) (r : Request) (docID userID : String)
    (hctx : r.ctxUserID = some userID)
    (hfault : s.db.pool.fault (.deleteDocumentByIDAndUser docID userID) = none) :
    handleDeleteDocument s r docID =
      (if s.db.pool.documents.countP (fun r => r.id == docID && r.user_id == userID) > 0
        then writeHeaderOnly 204 else httpError "not found" 404,
       { s with db :=
          { pool := { s.db.pool.record (.deleteDocumentByIDAndUser docID userID) with
                      documents := s.db.pool.documents.filter
                        (fun r => !(r.id == docID && r.user_id == userID)) } } }) := by
  by_cases h : s.db.pool.documents.countP
      (fun r => r.id == docID && r.user_id == userID) > 0
  · simp only [handleDeleteDocument, userIDFromContext, hctx,
      DeleteDocumentByIDAndUser_ok s.db docID userID hfault, h, decide_True, if_true]
  · simp only [handleDeleteDocument, userIDFromContext, hctx,
      DeleteDocumentByIDAndUser_ok s.db docID userID hfault, h, decide_False, if_false]

/-- C7: DELETE /documents/{id} by an authenticated caller, the delete statement
not failing. If a row with this id owned by the caller exists, the answer is 204
and the documents kept are exactly the rows that do not have this id and owner.
Otherwise (no row with this id, or only rows of other owners) the answer is
404 `not found`, not 500, and the documents are unchanged. Deleting the same id
again as the same caller always answers 404 and changes no document. -/
theorem delete_document_contract (s : Server) (r : Request) (docID userID : String)
    (hctx : r.ctxUserID = some userID)
    (hfault : s.db.pool.fault (.deleteDocumentByIDAndUser docID userID) = none) :
    ((∃ d ∈ s.db.pool.documents, d.id = docID ∧ d.user_id = userID) →
      (handleDeleteDocument s r docID).1 = writeHeaderOnly 204 ∧
      (handleDeleteDocument s r docID).2.db.pool.documents =
        s.db.pool.documents.filter (fun d => !(d.id == docID && d.user_id == userID)) ∧
      (∀ d, d ∈ (handleDeleteDocument s r docID).2.db.pool.documents ↔
        d ∈ s.db.pool.documents ∧ ¬ (d.id = docID ∧ d.user_id = userID))) ∧
    ((∀ d ∈ s.db.pool.documents, d.id = docID → d.user_id ≠ userID) →
      (handleDeleteDocument s r docID).1 = httpError "not found" 404 ∧
      (handleDeleteDocument s r docID).1.StatusCode ≠ 500 ∧
      (handleDeleteDocument s r docID).2.db.pool.documents = s.db.pool.documents) ∧
    ((handleDeleteDocument (handleDeleteDocument s r docID).2 r docID).1 =
        httpError "not found" 404 ∧
      (handleDeleteDocument (handleDeleteDocument s r docID).2 r docID).2.db.pool.documents =
        (handleDeleteDocument s r docID).2.db.pool.documents) := by
  have h1 := handleDeleteDocument_ok s r docID userID hctx hfault
  have hnone : ∀ l : List DocumentRow,
      (∀ d ∈ l, d.id = docID → d.user_id ≠ userID) →
      l.countP (fun r => r.id == docID && r.user_id == userID) = 0 ∧
      l.filter (fun r => !(r.id == docID && r.user_id == userID)) = l := by
    intro l hl
    constructor
    · rw [List.countP_eq_zero]
      intro d hd
      simp only [Bool.and_eq_true, beq_iff_eq, not_and]
      exact hl d hd
    · rw [List.filter_eq_self]
      intro d hd
      simp only [Bool.not_eq_true', Bool.and_eq_false_imp, beq_iff_eq, beq_eq_false_iff_ne]
      exact hl d hd
  refine ⟨?_, ?_, ?_⟩
  · rintro ⟨d, hd, hid, hu⟩
    have hpos : s.db.pool.documents.countP
        (fun r => r.id == docID && r.user_id == userID) > 0 := by
      rw [gt_iff_lt, List.countP_pos_iff]
      exact ⟨d, hd, by simp [hid, hu]⟩
    rw [h1]
    refine ⟨by simp only [hpos, if_true], rfl, ?_⟩
    intro x
    simp only [List.mem_filter, Bool.not_eq_true', Bool.and_eq_false_imp, beq_iff_eq,
      beq_eq_false_iff_ne, ne_eq, not_and]
  · intro hown
    obtain ⟨hc, hf⟩ := hnone _ hown
    rw [h1]
    refine ⟨by simp [hc], by simp [hc, httpError], ?_⟩
    exact hf
  · have hgone : ∀ d ∈ (handleDeleteDocument s r docID).2.db.pool.documents,
        d.id = docID → d.user_id ≠ userID := by
      rw [h1]
      intro d hd hid hu
      simp [List.mem_filter, hid, hu] at hd
    have hfault2 : (handleDeleteDocument s r docID).2.db.pool.fault
        (.deleteDocumentByIDAndUser docID userID) = none := by
      rw [h1]; exact hfault
    obtain ⟨hc, hf⟩ := hnone _ hgone
    rw [handleDeleteDocument_ok _ r docID userID hctx hfault2]
    exact ⟨by simp [hc], hf⟩

/-- C7 at a concrete store: `alice` deletes her document `d1` (204, no document
left), and `bob` cannot delete it (404, the document stays). -/
theorem delete_document_contract_witness :
    (handleDeleteDocument (sampleServer [aliceDoc] []) (requestAs "DELETE" "alice") "d1").1 =
      writeHeaderOnly 204 ∧
    (handleDeleteDocument (sampleServer [aliceDoc] []) (requestAs "DELETE" "alice")
      "d1").2.db.pool.documents = [] ∧
    (handleDeleteDocument (sampleServer [aliceDoc] []) (requestAs "DELETE" "bob") "d1").1 =
      httpError "not found" 404 ∧
    (handleDeleteDocument (sampleServer [aliceDoc] []) (requestAs "DELETE" "bob")
      "d1").2.db.pool.documents = [aliceDoc] :=
  have ha := (delete_document_contract (sampleServer [aliceDoc] [])
    (requestAs "DELETE" "alice") "d1" "alice" rfl rfl).1 ⟨aliceDoc, by decide, rfl, rfl⟩
  have hb := (delete_document_contract (sampleServer [aliceDoc] [])
    (requestAs "DELETE" "bob") "d1" "bob" rfl rfl).2.1 (by decide)
  ⟨ha.1, by rw [ha.2.1]; decide, hb.1, hb.2.2⟩

/-! ## GET /documents -/

/-- C8 (what the code does): for an authenticated user who owns no document, the
list statement not failing, GET /documents answers 200 with the JSON body
`null`, which is not the empty array `[]`: `docs` is declared as a nil slice,
no row is appended, and `encoding/json` writes a nil slice as `null`. -/
theorem list_documents_empty_owner_writes_null (s : Server) (r : Request) (userID : String)
    (hctx : r.ctxUserID = some userID)
    (hfault : s.db.pool.fault (.listDocumentsByUser userID) = none)
    (hnone : ∀ d ∈ s.db.pool.documents, d.user_id ≠ userID) :
    (handleListDocuments s r).1 =
      { StatusCode := 200, ContentType := "application/json", Body := .json .null } ∧
    (handleListDocuments s r).1 ≠
      { StatusCode := 200, ContentType := "application/json", Body := .json (.arr []) } := by
  have hnil : s.db.pool.documents.filter (fun r => r.user_id == userID) = [] := by
    rw [List.filter_eq_nil_iff]
    intro d hd
    simp only [beq_iff_eq]
    exact hnone d hd
  have hresp : (handleListDocuments s r).1 =
      { StatusCode := 200, ContentType := "application/json", Body := .json .null } := by
    simp only [handleListDocuments, userIDFromContext, hctx, Store.ListDocumentsByUser,
      hfault, hnil, List.insertionSort, List.foldl_nil, documentsToJson, writeJSON]
  refine ⟨hresp, ?_⟩
  rw [hresp]
  intro h
  injection h with _ _ hb
  injection hb with hj
  cases hj

/-- C8 at a concrete store: the store holds one document of `alice`; `bob`, who
owns nothing, lists his documents and receives `null`. -/
theorem list_documents_empty_owner_writes_null_witness :
    (handleListDocuments (sampleServer [aliceDoc] []) (requestAs "GET" "bob")).1 =
      { StatusCode := 200, ContentType := "application/json", Body := .json .null } :=
  (list_documents_empty_owner_writes_null (sampleServer [aliceDoc] [])
    (requestAs "GET" "bob") "bob" rfl rfl (by decide)).1

/-! ## The auth middleware -/

/-- The code point of `Char.ofNat m` below the surrogate range is `m`. -/
theorem toNat_ofNat_small (m : Nat) (h : m < 0xd800) : (Char.ofNat m).toNat = m := by
  have hv : m.isValidChar := Or.inl h
  rw [Char.ofNat, dif_pos hv]
  simp [Char.ofNatAux, Char.toNat, UInt32.toNat]

/-- Characters with the same code point are equal. -/
theorem char_eq_of_toNat {c d : Char} (h : c.toNat = d.toNat) : c = d := by
  rw [← Char.ofNat_toNat c, ← Char.ofNat_toNat d, h]

/-- The code point of the lower-case form. -/
theorem toLower_toNat (c : Char) :
    c.toLower.toNat = if 65 ≤ c.toNat ∧ c.toNat ≤ 90 then c.toNat + 32 else c.toNat := by
  unfold Char.toLower
  by_cases h : c.toNat ≥ 65 ∧ c.toNat ≤ 90
  · simp only [h, and_self, if_true]
    exact toNat_ofNat_small _ (by omega)
  · simp only [h, if_false]

/-- Against a letter other than `k` and `s`, the rune comparison of `EqualFold`
is equality of the lower-case forms. -/
theorem foldEqRune_plainLetter (c t : Char) (ht : plainLetter t = true) :
    foldEqRune c t = true ↔ c.toLower = t.toLower := by
  simp only [plainLetter, decide_eq_true_eq] at ht
  obtain ⟨hl, h1, h2, h3, h4⟩ := ht
  have hlow : c.toLower = t.toLower ↔ c.toLower.toNat = t.toLower.toNat :=
    ⟨fun h => by rw [h], char_eq_of_toNat⟩
  rw [hlow, toLower_toNat, toLower_toNat]
  by_cases hct : c.toNat = t.toNat
  · have : t = c := (char_eq_of_toNat hct).symm
    subst this
    simp [foldEqRune]
  · have hne : ¬ t = c := fun h => hct (by rw [h])
    have hK : ¬ t = 'K' := fun h => h1 (by rw [h]; rfl)
    have hk : ¬ t = 'k' := fun h => h2 (by rw [h]; rfl)
    have hS : ¬ t = 'S' := fun h => h3 (by rw [h]; rfl)
    have hs : ¬ t = 's' := fun h => h4 (by rw [h]; rfl)
    unfold foldEqRune
    simp only [hne, if_false]
    by_cases hlt : t.toNat < c.toNat
    · simp only [hlt, if_true]
      by_cases h128 : c.toNat < 128
      · simp only [h128, if_true, decide_eq_true_eq]
        split_ifs <;> omega
      · simp only [h128, if_false, hK, hk, hS, hs, false_or, false_and, or_self, decide_False]
        split_ifs <;> simp <;> omega
    · simp only [hlt, if_false]
      have h128 : t.toNat < 128 := by omega
      simp only [h128, if_true, decide_eq_true_eq]
      split_ifs <;> omega

/-- Against a word of letters other than `k` and `s`, `EqualFold` on runes is
equality of the lower-case forms. -/
theorem equalFoldRunes_plain (s t : List Char) (ht : ∀ c ∈ t, plainLetter c = true) :
    equalFoldRunes s t = true ↔ s.map Char.toLower = t.map Char.toLower := by
  induction s generalizing t with
  | nil => cases t <;> simp [equalFoldRunes]
  | cons a s ih =>
    cases t with
    | nil => simp [equalFoldRunes]
    | cons b t =>
      simp only [equalFoldRunes, Bool.and_eq_true, List.map_cons, List.cons.injEq]
      rw [foldEqRune_plainLetter a b (ht b (List.mem_cons_self b t)),
        ih t (fun c hc => ht c (List.mem_cons_of_mem b hc))]

/-- The scheme test of withAuth holds exactly for the words whose lower-case form
is `bearer`. -/
theorem EqualFold_Bearer (s : String) :
    EqualFold s "Bearer" = true ↔ s.toLower = "bearer" := by
  unfold EqualFold
  rw [equalFoldRunes_plain s.data "Bearer".data (by decide)]
  unfold String.toLower
  rw [String.map_eq]
  constructor
  · intro h
    apply String.ext
    rw [h]; rfl
  · intro h
    have := congrArg String.data h
    simp only at this
    rw [this]; rfl

/-- The cut at the first space: the text before it has no space. -/
theorem cutSpace_sound (l a b : List Char) (h : cutSpace l = some (a, b)) :
    l = a ++ ' ' :: b ∧ ' ' ∉ a := by
  induction l generalizing a b with
  | nil => simp [cutSpace] at h
  | cons c cs ih =>
    by_cases hc : c = ' '
    · subst hc
      simp only [cutSpace, if_true, Option.some.injEq, Prod.mk.injEq] at h
      obtain ⟨rfl, rfl⟩ := h
      simp
    · simp only [cutSpace, hc, if_false] at h
      cases hcs : cutSpace cs with
      | none => rw [hcs] at h; cases h
      | some ab =>
        obtain ⟨a0, b0⟩ := ab
        rw [hcs] at h
        simp only [Option.some.injEq, Prod.mk.injEq] at h
        obtain ⟨rfl, rfl⟩ := h
        obtain ⟨h1, h2⟩ := ih a0 b0 hcs
        refine ⟨by rw [h1]; rfl, ?_⟩
        intro hm
        rcases List.mem_cons.mp hm with h | h
        · exact hc h.symm
        · exact h2 h

/-- A text without a space, a space and a rest are cut at that space. -/
theorem cutSpace_complete (a b : List Char) (ha : ' ' ∉ a) :
    cutSpace (a ++ ' ' :: b) = some (a, b) := by
  induction a with
  | nil => simp [cutSpace]
  | cons x xs ih =>
    have hx : ¬ x = ' ' := fun h => ha (by rw [h]; exact List.mem_cons_self _ _)
    have hxs : ' ' ∉ xs := fun hm => ha (List.mem_cons_of_mem _ hm)
    have ih1 : cutSpace (xs.append (' ' :: b)) = some (xs, b) := ih hxs
    simp only [List.cons_append, cutSpace, hx, if_false, ih1]

/-- `SplitN` yields two parts exactly when the text is the first part, a space
and the second part, the first part having no space. -/
theorem SplitN_pair (s p0 p1 : String) :
    SplitN s = [p0, p1] ↔ s = p0 ++ " " ++ p1 ∧ ' ' ∉ p0.data := by
  unfold SplitN
  constructor
  · intro h
    cases hc : cutSpace s.data with
    | none => rw [hc] at h; simp at h
    | some ab =>
      obtain ⟨a, b⟩ := ab
      rw [hc] at h
      simp only [List.cons.injEq, and_true] at h
      obtain ⟨rfl, rfl⟩ := h
      obtain ⟨h1, h2⟩ := cutSpace_sound _ _ _ hc
      refine ⟨?_, h2⟩
      apply String.ext
      rw [String.data_append, String.data_append, h1]
      simp
  · rintro ⟨rfl, hn⟩
    have hd : (p0 ++ " " ++ p1).data = p0.data ++ ' ' :: p1.data := by
      rw [String.data_append, String.data_append]
      simp
    rw [hd, cutSpace_complete _ _ hn]

/-- The middleware, by the parts of the header: it calls `next` with the user id
of the token when the header splits into a scheme that folds to `Bearer` and a
token that parses, and else writes one of three 401 responses itself. -/
theorem withAuth_cases (deps : Deps) (next : HandlerFunc) (s : Server) (r : Request) :
    (∃ p0 p1 claims, r.Authorization = some (p0 ++ " " ++ p1) ∧ ' ' ∉ p0.data ∧
        EqualFold p0 "Bearer" = true ∧ parseToken deps s p1 = .ok claims ∧
        withAuth deps next s r = next s { r with ctxUserID := some claims.UserID }) ∨
    ((¬ ∃ p0 p1 claims, r.Authorization = some (p0 ++ " " ++ p1) ∧ ' ' ∉ p0.data ∧
        EqualFold p0 "Bearer" = true ∧ parseToken deps s p1 = .ok claims) ∧
      ∃ msg, ∀ next0 : HandlerFunc, withAuth deps next0 s r = (httpError msg 401, s)) := by
  have hsplit : ∀ p0 p1 : String, r.Authorization = some (p0 ++ " " ++ p1) →
      ' ' ∉ p0.data → r.Authorization.getD "" ≠ "" ∧
      SplitN (r.Authorization.getD "") = [p0, p1] := by
    intro p0 p1 h hn
    rw [h]
    simp only [Option.getD_some]
    refine ⟨?_, (SplitN_pair _ p0 p1).mpr ⟨rfl, hn⟩⟩
    intro he
    have hd := congrArg String.data he
    rw [String.data_append, String.data_append] at hd
    simp at hd
  by_cases hempty : r.Authorization.getD "" = ""
  · right
    refine ⟨?_, "missing Authorization header", fun next0 => by
      simp only [withAuth, hempty, if_true]⟩
    rintro ⟨p0, p1, claims, h, hn, -, -⟩
    exact (hsplit p0 p1 h hn).1 hempty
  · have hauth : r.Authorization = some (r.Authorization.getD "") := by
      cases ha : r.Authorization with
      | none => rw [ha] at hempty; simp at hempty
      | some a => simp
    have hdeny : ∀ l : List String, SplitN (r.Authorization.getD "") = l →
        (∀ p0 p1, l ≠ [p0, p1]) →
        (¬ ∃ p0 p1 claims, r.Authorization = some (p0 ++ " " ++ p1) ∧ ' ' ∉ p0.data ∧
          EqualFold p0 "Bearer" = true ∧ parseToken deps s p1 = .ok claims) := by
      rintro l hl hne ⟨p0, p1, claims, h, hn, -, -⟩
      exact hne p0 p1 (by rw [← hl, (hsplit p0 p1 h hn).2])
    cases hl : SplitN (r.Authorization.getD "") with
    | nil =>
      right
      refine ⟨hdeny _ hl (by simp), "invalid Authorization header", fun next0 => by
        simp only [withAuth, hempty, if_false, hl]⟩
    | cons p0 rest =>
      cases rest with
      | nil =>
        right
        refine ⟨hdeny _ hl (by simp), "invalid Authorization header", fun next0 => by
          simp only [withAuth, hempty, if_false, hl]⟩
      | cons p1 rest2 =>
        cases rest2 with
        | cons p2 rest3 =>
          right
          refine ⟨hdeny _ hl (by simp), "invalid Authorization header", fun next0 => by
            simp only [withAuth, hempty, if_false, hl]⟩
        | nil =>
          obtain ⟨hform, hn⟩ := (SplitN_pair _ p0 p1).mp hl
          have huniq : ∀ q0 q1 : String, r.Authorization = some (q0 ++ " " ++ q1) →
              ' ' ∉ q0.data → q0 = p0 ∧ q1 = p1 := by
            intro q0 q1 h hq
            have h2 := (hsplit q0 q1 h hq).2
            rw [hl] at h2
            simp only [List.cons.injEq, and_true] at h2
            exact ⟨h2.1.symm, h2.2.symm⟩
          by_cases hfold : EqualFold p0 "Bearer" = true
          · cases hparse : parseToken deps s p1 with
            | error e =>
              right
              refine ⟨?_, "invalid token", fun next0 => by
                simp only [withAuth, hempty, if_false, hl, hfold, hparse, Bool.not_true,
                  Bool.false_eq_true]⟩
              rintro ⟨q0, q1, claims, h, hq, -, hp⟩
              obtain ⟨rfl, rfl⟩ := huniq q0 q1 h hq
              rw [hparse] at hp
              cases hp
            | ok claims =>
              left
              refine ⟨p0, p1, claims, by rw [← hform]; exact hauth, hn, hfold, hparse, ?_⟩
              simp only [withAuth, hempty, if_false, hl, hfold, hparse, Bool.not_true,
                Bool.false_eq_true]
          · right
            refine ⟨?_, "invalid Authorization header", fun next0 => by
              simp only [withAuth, hempty, if_false, hl, hfold, Bool.not_false, if_true]⟩
            rintro ⟨q0, q1, claims, h, hq, hf, -⟩
            obtain ⟨rfl, rfl⟩ := huniq q0 q1 h hq
            exact hfold hf

/-- What parseToken accepts: exactly the tokens that `jwt.ParseWithClaims` parses
under the signing secret of the server without error and with `Valid` set; the
claims returned are the claims of that token. -/
theorem parseToken_ok_iff (deps : Deps) (s : Server) (tokenStr : String) (claims : Claims) :
    parseToken deps s tokenStr = .ok claims ↔
      ∃ token, deps.ParseWithClaims tokenStr s.jwtSecret = .ok token ∧
        token.Valid = true ∧ token.Claims = claims := by
  unfold parseToken
  cases hp : deps.ParseWithClaims tokenStr s.jwtSecret with
  | error e =>
    constructor
    · intro h; cases h
    · rintro ⟨token, h, -, -⟩; cases h
  | ok token =>
    cases hv : token.Valid with
    | false =>
      constructor
      · intro h
        simp only [hv, Bool.not_false, if_true] at h
        cases h
      · rintro ⟨token2, h, hv2, -⟩
        injection h with h
        subst h
        rw [hv] at hv2
        cases hv2
    | true =>
      constructor
      · intro h
        simp only [hv, Bool.not_true, Bool.false_eq_true, if_false] at h
        injection h with h
        exact ⟨token, rfl, hv, h⟩
      · rintro ⟨token2, h, -, hc⟩
        injection h with h
        subst h
        simp only [hv, Bool.not_true, Bool.false_eq_true, if_false, hc]

/-- What parseToken rejects: the tokens on which `jwt.ParseWithClaims` fails under
the signing secret, and the tokens it returns with `Valid` unset. -/
theorem parseToken_error (deps : Deps) (s : Server) (tokenStr : String)
    (h : ∀ token, deps.ParseWithClaims tokenStr s.jwtSecret = .ok token →
      token.Valid = false) :
    ∃ err, parseToken deps s tokenStr = .error err := by
  cases hp : parseToken deps s tokenStr with
  | error e => exact ⟨e, rfl⟩
  | ok claims =>
    obtain ⟨token, h1, h2, -⟩ := (parseToken_ok_iff deps s tokenStr claims).mp hp
    rw [h token h1] at h2
    cases h2

/-- C2 (amended): the protected handler runs, with the user id of the token in the
request context, when the Authorization header is a scheme word without a
space, one space and a token, the scheme being `Bearer` in any letter case and
the token verifying: `jwt.ParseWithClaims` parses it under the signing secret
of the server without error (signature and expiry) and marks it valid. For
every other header (missing, empty, no space, another scheme, or a token that
the library rejects or does not mark valid) the middleware answers 401 with
the server unchanged, whatever the protected handler is: the handler is not
called. A bearer header whose token does not verify is answered 401
`invalid token`. -/
theorem withAuth_contract (deps : Deps) (next : HandlerFunc) (s : Server) (r : Request) :
    (∀ (scheme tok : String) (token : Token),
        r.Authorization = some (scheme ++ " " ++ tok) → ' ' ∉ scheme.data →
        scheme.toLower = "bearer" →
        deps.ParseWithClaims tok s.jwtSecret = .ok token → token.Valid = true →
        withAuth deps next s r =
          next s { r with ctxUserID := some token.Claims.UserID }) ∧
    ((¬ ∃ (scheme tok : String) (token : Token),
        r.Authorization = some (scheme ++ " " ++ tok) ∧ ' ' ∉ scheme.data ∧
        scheme.toLower = "bearer" ∧
        deps.ParseWithClaims tok s.jwtSecret = .ok token ∧ token.Valid = true) →
      (withAuth deps next s r).1.StatusCode = 401 ∧
      ∃ msg, ∀ next0 : HandlerFunc, withAuth deps next0 s r = (httpError msg 401, s)) ∧
    (∀ (scheme tok : String),
        r.Authorization = some (scheme ++ " " ++ tok) → ' ' ∉ scheme.data →
        scheme.toLower = "bearer" →
        (∀ token, deps.ParseWithClaims tok s.jwtSecret = .ok token → token.Valid = false) →
        ∀ next0 : HandlerFunc,
          withAuth deps next0 s r = (httpError "invalid token" 401, s)) := by
  have hhead : ∀ (scheme tok : String),
      r.Authorization = some (scheme ++ " " ++ tok) → ' ' ∉ scheme.data →
      scheme.toLower = "bearer" →
      r.Authorization.getD "" ≠ "" ∧ SplitN (r.Authorization.getD "") = [scheme, tok] ∧
      EqualFold scheme "Bearer" = true := by
    intro scheme tok h hn hlow
    rw [h]
    simp only [Option.getD_some]
    refine ⟨?_, (SplitN_pair _ scheme tok).mpr ⟨rfl, hn⟩, (EqualFold_Bearer scheme).mpr hlow⟩
    intro he
    have hd := congrArg String.data he
    rw [String.data_append, String.data_append] at hd
    simp at hd
  refine ⟨?_, ?_, ?_⟩
  · intro scheme tok token h hn hlow hparse hvalid
    obtain ⟨hne, hsp, hfold⟩ := hhead scheme tok h hn hlow
    have hp : parseToken deps s tok = .ok token.Claims :=
      (parseToken_ok_iff deps s tok token.Claims).mpr ⟨token, hparse, hvalid, rfl⟩
    simp only [withAuth, hne, if_false, hsp, hfold, hp, Bool.not_true, Bool.false_eq_true]
  · intro hno
    rcases withAuth_cases deps next s r with ⟨p0, p1, claims, h, hn, hf, hp, -⟩ | ⟨-, msg, hmsg⟩
    · obtain ⟨token, h1, h2, -⟩ := (parseToken_ok_iff deps s p1 claims).mp hp
      exact absurd ⟨p0, p1, token, h, hn, (EqualFold_Bearer p0).mp hf, h1, h2⟩ hno
    · exact ⟨by rw [hmsg next]; rfl, msg, hmsg⟩
  · intro scheme tok h hn hlow hbad next0
    obtain ⟨hne, hsp, hfold⟩ := hhead scheme tok h hn hlow
    obtain ⟨err, herr⟩ := parseToken_error deps s tok hbad
    simp only [withAuth, hne, if_false, hsp, hfold, herr, Bool.not_true, Bool.false_eq_true]

/-- C2 (amended) at concrete requests: `Bearer T` with the valid token `T` runs the
protected handler as user `u1`; `Basic xyz` is answered 401; `Bearer forged`,
which the library does not parse under the secret, is answered 401
`invalid token`; and so is `Bearer T` when the library returns `T` without
marking it valid. -/
theorem withAuth_contract_witness :
    withAuth sampleDeps handleListDocuments (sampleServer [] [])
        (requestWithHeader "GET" "Bearer T") =
      handleListDocuments (sampleServer [] [])
        { requestWithHeader "GET" "Bearer T" with ctxUserID := some "u1" } ∧
    (withAuth sampleDeps handleListDocuments (sampleServer [] [])
        (requestWithHeader "GET" "Basic xyz")).1.StatusCode = 401 ∧
    withAuth sampleDeps handleListDocuments (sampleServer [] [])
        (requestWithHeader "GET" "Bearer forged") =
      (httpError "invalid token" 401, sampleServer [] []) ∧
    withAuth flaggedTokenDeps handleListDocuments (sampleServer [] [])
        (requestWithHeader "GET" "Bearer T") =
      (httpError "invalid token" 401, sampleServer [] []) :=
  ⟨(withAuth_contract sampleDeps handleListDocuments (sampleServer [] [])
      (requestWithHeader "GET" "Bearer T")).1 "Bearer" "T"
      { Claims := { UserID := "u1", IssuedAt := some 0, ExpiresAt := some 86400 },
        Valid := true }
      rfl (by decide) ((EqualFold_Bearer "Bearer").mp rfl) rfl rfl,
   ((withAuth_contract sampleDeps handleListDocuments (sampleServer [] [])
      (requestWithHeader "GET" "Basic xyz")).2.1 (by
        rintro ⟨scheme, tok, token, h, hn, hlow, -, -⟩
        have hsp := (SplitN_pair _ scheme tok).mpr ⟨rfl, hn⟩
        have h2 : scheme ++ " " ++ tok = "Basic xyz" := by
          simp only [requestWithHeader, Option.some.injEq] at h
          exact h.symm
        rw [h2] at hsp
        have h3 : SplitN "Basic xyz" = ["Basic", "xyz"] := rfl
        rw [h3] at hsp
        simp only [List.cons.injEq, and_true] at hsp
        have hf := (EqualFold_Bearer scheme).mpr hlow
        rw [← hsp.1] at hf
        exact absurd hf (by decide))).1,
   (withAuth_contract sampleDeps handleListDocuments (sampleServer [] [])
      (requestWithHeader "GET" "Bearer forged")).2.2 "Bearer" "forged"
      rfl (by decide) ((EqualFold_Bearer "Bearer").mp rfl)
      (fun token h => by simp [sampleDeps] at h) handleListDocuments,
   (withAuth_contract flaggedTokenDeps handleListDocuments (sampleServer [] [])
      (requestWithHeader "GET" "Bearer T")).2.2 "Bearer" "T"
      rfl (by decide) ((EqualFold_Bearer "Bearer").mp rfl)
      (fun token h => by
        simp [flaggedTokenDeps, sampleServer] at h
        rw [← h])
      handleListDocuments⟩

/-- C2 as stated fails: the header `bearer T` does not have the form
`Bearer <token>`, yet with a valid token `T` the middleware does not answer
401: the protected handler (here the document listing) runs as the user of the
token and its statement reaches the store. -/
theorem withAuth_lowercase_scheme_runs_handler :
    (withAuth sampleDeps handleListDocuments (sampleServer [] [])
        (requestWithHeader "GET" "bearer T")).1.StatusCode = 200 ∧
    (withAuth sampleDeps handleListDocuments (sampleServer [] [])
        (requestWithHeader "GET" "bearer T")).2.db.pool.log = [.listDocumentsByUser "u1"] ∧
    ¬ ∃ tok : String, "bearer T" = "Bearer " ++ tok := by
  refine ⟨rfl, rfl, ?_⟩
  rintro ⟨tok, h⟩
  have hd := congrArg String.data h
  rw [String.data_append] at hd
  have hh := congrArg List.head? hd
  simp at hh

/-! ## POST /documents -/

/-- The insert statement, when it does not fail: the row appended and returned has
the owner passed in and the status `uploaded`; the log grows by this statement. -/
theorem CreateDocument_ok (s : Store) (userID originalName contentType storagePath : String)
    (hfault : s.pool.fault
      (.createDocument userID originalName contentType storagePath) = none) :
    s.CreateDocument userID originalName contentType storagePath =
      (.ok { ID := s.pool.genID s.pool.seq, UserID := userID, OriginalName := originalName,
             ContentType := contentType, StoragePath := storagePath,
             ExtractedMarkdown := "", Status := "uploaded",
             UploadedAt := s.pool.now, UpdatedAt := s.pool.now },
       { pool := { s.pool.record
                     (.createDocument userID originalName contentType storagePath) with
                   documents := s.pool.documents ++
                     [{ id := s.pool.genID s.pool.seq, user_id := userID,
                        original_name := originalName, content_type := contentType,
                        storage_path := storagePath, extracted_markdown := none,
                        status := "uploaded", uploaded_at := s.pool.now,
                        updated_at := s.pool.now }],
                   seq := s.pool.seq + 1 } }) := by
  simp only [Store.CreateDocument, hfault]

/-- The insert statement, when it fails: no row is added. -/
theorem CreateDocument_fault (s : Store)
    (userID originalName contentType storagePath msg : String)
    (hfault : s.pool.fault
      (.createDocument userID originalName contentType storagePath) = some msg) :
    s.CreateDocument userID originalName contentType storagePath =
      (.error (.other msg),
       { pool := s.pool.record
          (.createDocument userID originalName contentType storagePath) }) := by
  simp only [Store.CreateDocument, hfault]

/-- The upload handler once the bytes are on disk: what remains is the insert. -/
theorem handleUploadDocument_written (deps : Deps) (s : Server) (r : Request)
    (userID : String) (form : MultipartForm) (header : FilePart)
    (hctx : r.ctxUserID = some userID) (hform : r.Form = some form)
    (hfile : FormFile form "file" = some header)
    (hmk : deps.MkdirAll "uploads" = none)
    (hcr : deps.Create (deps.Join "uploads" header.Filename) = none)
    (hrd : deps.ReadFrom (deps.Join "uploads" header.Filename) header.Content = none) :
    handleUploadDocument deps s r =
      match s.db.CreateDocument userID header.Filename header.ContentType
          (deps.Join "uploads" header.Filename) with
      | (.error _, db1) => (httpError "internal error" 500, { s with db := db1 })
      | (.ok doc, db1) => (writeJSON 201 (some doc.toJson), { s with db := db1 }) := by
  simp only [handleUploadDocument, userIDFromContext, hctx, hform, hfile, hmk, hcr, hrd]

/-- The upload handler when the bytes are not on disk (no user in the context, no
form, no `file` part, or a failed directory, file creation or copy): the server
is left as it was and the status is 400, 401 or 500. -/
theorem handleUploadDocument_not_written (deps : Deps) (s : Server) (r : Request)
    (hno : ¬ ∃ userID form header, r.ctxUserID = some userID ∧ r.Form = some form ∧
      FormFile form "file" = some header ∧ deps.MkdirAll "uploads" = none ∧
      deps.Create (deps.Join "uploads" header.Filename) = none ∧
      deps.ReadFrom (deps.Join "uploads" header.Filename) header.Content = none) :
    (handleUploadDocument deps s r).2 = s ∧
    ((handleUploadDocument deps s r).1.StatusCode = 400 ∨
     (handleUploadDocument deps s r).1.StatusCode = 401 ∨
     (handleUploadDocument deps s r).1.StatusCode = 500) := by
  cases hctx : r.ctxUserID with
  | none => simp [handleUploadDocument, userIDFromContext, hctx, httpError]
  | some userID =>
    cases hform : r.Form with
    | none => simp [handleUploadDocument, userIDFromContext, hctx, hform, httpError]
    | some form =>
      cases hfile : FormFile form "file" with
      | none => simp [handleUploadDocument, userIDFromContext, hctx, hform, hfile, httpError]
      | some header =>
        cases hmk : deps.MkdirAll "uploads" with
        | some e =>
          simp [handleUploadDocument, userIDFromContext, hctx, hform, hfile, hmk, httpError]
        | none =>
          cases hcr : deps.Create (deps.Join "uploads" header.Filename) with
          | some e =>
            simp [handleUploadDocument, userIDFromContext, hctx, hform, hfile, hmk, hcr,
              httpError]
          | none =>
            cases hrd : deps.ReadFrom (deps.Join "uploads" header.Filename)
                header.Content with
            | some e =>
              simp [handleUploadDocument, userIDFromContext, hctx, hform, hfile, hmk, hcr,
                hrd, httpError]
            | none =>
              exact absurd ⟨userID, form, header, hctx, hform, hfile, hmk, hcr, hrd⟩ hno

/-- The log after an insert attempt: the insert statement was appended. -/
theorem CreateDocument_log (s : Store) (userID originalName contentType storagePath : String) :
    (s.CreateDocument userID originalName contentType storagePath).2.pool.log =
      s.pool.log ++ [.createDocument userID originalName contentType storagePath] := by
  cases hf : s.pool.fault (.createDocument userID originalName contentType storagePath) with
  | none => rw [CreateDocument_ok s _ _ _ _ hf]; rfl
  | some msg => rw [CreateDocument_fault s _ _ _ _ msg hf]; rfl

/-- C10: when the form cannot be parsed, or has no `file` part, or the uploads
directory cannot be created, or the destination file cannot be created, or the
copy fails, handleUploadDocument leaves the server as it was: no document row
is added, no statement is sent to the store, and the status is not 201.
Conversely, whenever the handler sends a statement to the store, the form was
parsed, the `file` part was present and the directory, the file creation and
the copy had all succeeded, and the statement is the single CreateDocument. -/
theorem upload_failure_creates_no_document (deps : Deps) (s : Server) (r : Request) :
    ((r.Form = none ∨
      (∃ form, r.Form = some form ∧ FormFile form "file" = none) ∨
      (∃ form header, r.Form = some form ∧ FormFile form "file" = some header ∧
        (deps.MkdirAll "uploads" ≠ none ∨
         deps.Create (deps.Join "uploads" header.Filename) ≠ none ∨
         deps.ReadFrom (deps.Join "uploads" header.Filename) header.Content ≠ none))) →
      (handleUploadDocument deps s r).2 = s ∧
      (handleUploadDocument deps s r).2.db.pool.documents = s.db.pool.documents ∧
      (handleUploadDocument deps s r).2.db.pool.log = s.db.pool.log ∧
      (handleUploadDocument deps s r).1.StatusCode ≠ 201) ∧
    ((handleUploadDocument deps s r).2.db.pool.log ≠ s.db.pool.log →
      ∃ userID form header, r.ctxUserID = some userID ∧ r.Form = some form ∧
        FormFile form "file" = some header ∧ deps.MkdirAll "uploads" = none ∧
        deps.Create (deps.Join "uploads" header.Filename) = none ∧
        deps.ReadFrom (deps.Join "uploads" header.Filename) header.Content = none ∧
        (handleUploadDocument deps s r).2.db.pool.log =
          s.db.pool.log ++ [.createDocument userID header.Filename header.ContentType
            (deps.Join "uploads" header.Filename)]) := by
  constructor
  · intro hfail
    have hno : ¬ ∃ userID form header, r.ctxUserID = some userID ∧ r.Form = some form ∧
        FormFile form "file" = some header ∧ deps.MkdirAll "uploads" = none ∧
        deps.Create (deps.Join "uploads" header.Filename) = none ∧
        deps.ReadFrom (deps.Join "uploads" header.Filename) header.Content = none := by
      rintro ⟨userID, form, header, -, hform, hfile, hmk, hcr, hrd⟩
      rcases hfail with h | ⟨form2, h, h2⟩ | ⟨form2, header2, h, h2, h3⟩
      · rw [h] at hform; cases hform
      · rw [h] at hform; cases hform; rw [h2] at hfile; cases hfile
      · rw [h] at hform; cases hform; rw [h2] at hfile; cases hfile
        rcases h3 with h3 | h3 | h3
        · exact h3 hmk
        · exact h3 hcr
        · exact h3 hrd
    obtain ⟨h1, h2⟩ := handleUploadDocument_not_written deps s r hno
    refine ⟨h1, by rw [h1], by rw [h1], ?_⟩
    rcases h2 with h2 | h2 | h2 <;> rw [h2] <;> decide
  · intro hlog
    by_cases hw : ∃ userID form header, r.ctxUserID = some userID ∧ r.Form = some form ∧
        FormFile form "file" = some header ∧ deps.MkdirAll "uploads" = none ∧
        deps.Create (deps.Join "uploads" header.Filename) = none ∧
        deps.ReadFrom (deps.Join "uploads" header.Filename) header.Content = none
    · obtain ⟨userID, form, header, hctx, hform, hfile, hmk, hcr, hrd⟩ := hw
      refine ⟨userID, form, header, hctx, hform, hfile, hmk, hcr, hrd, ?_⟩
      rw [handleUploadDocument_written deps s r userID form header hctx hform hfile hmk hcr hrd]
      have hl := CreateDocument_log s.db userID header.Filename header.ContentType
        (deps.Join "uploads" header.Filename)
      cases hc : s.db.CreateDocument userID header.Filename header.ContentType
          (deps.Join "uploads" header.Filename) with
      | mk out db1 =>
        rw [hc] at hl
        cases out <;> exact hl
    · exact absurd (by rw [(handleUploadDocument_not_written deps s r hw).1]) hlog

/-- C10 at a concrete request: the copy to disk fails; the answer is 500 and the
server, its documents and its statement log are as before. -/
theorem upload_failure_creates_no_document_witness :
    (handleUploadDocument fullDiskDeps (sampleServer [] [])
        (uploadRequest [("file", reportPart)])).2 = sampleServer [] [] ∧
    (handleUploadDocument fullDiskDeps (sampleServer [] [])
        (uploadRequest [("file", reportPart)])).2.db.pool.documents = [] ∧
    (handleUploadDocument fullDiskDeps (sampleServer [] [])
        (uploadRequest [("file", reportPart)])).2.db.pool.log = [] ∧
    (handleUploadDocument fullDiskDeps (sampleServer [] [])
        (uploadRequest [("file", reportPart)])).1.StatusCode ≠ 201 :=
  (upload_failure_creates_no_document fullDiskDeps (sampleServer [] [])
    (uploadRequest [("file", reportPart)])).1
    (Or.inr (Or.inr ⟨_, reportPart, rfl, rfl, Or.inr (Or.inr (by simp [fullDiskDeps]))⟩))

/-- The list handler never answers 201. -/
theorem handleListDocuments_status (s : Server) (r : Request) :
    (handleListDocuments s r).1.StatusCode ≠ 201 := by
  cases hctx : r.ctxUserID with
  | none => simp [handleListDocuments, userIDFromContext, hctx, httpError]
  | some userID =>
    cases hl : s.db.ListDocumentsByUser userID with
    | mk out db1 =>
      cases out <;>
        simp [handleListDocuments, userIDFromContext, hctx, hl, httpError, writeJSON]

/-- A 201 from POST /documents behind the middleware: the header carried a bearer
token that parsed, the form had a `file` part, and the response and the store
afterwards are those of one insert made for the user of the token. -/
theorem upload_via_auth_created (deps : Deps) (s : Server) (r : Request)
    (hok : (withAuth deps (handleDocuments deps) s r).1.StatusCode = 201) :
    ∃ scheme tok claims form header,
      r.Authorization = some (scheme ++ " " ++ tok) ∧ ' ' ∉ scheme.data ∧
      parseToken deps s tok = .ok claims ∧
      r.Form = some form ∧ FormFile form "file" = some header ∧
      withAuth deps (handleDocuments deps) s r =
        (writeJSON 201 (some (Document.toJson
            { ID := s.db.pool.genID s.db.pool.seq, UserID := claims.UserID,
              OriginalName := header.Filename, ContentType := header.ContentType,
              StoragePath := deps.Join "uploads" header.Filename,
              ExtractedMarkdown := "", Status := "uploaded",
              UploadedAt := s.db.pool.now, UpdatedAt := s.db.pool.now })),
         { s with db :=
            { pool := { s.db.pool.record
                          (.createDocument claims.UserID header.Filename header.ContentType
                            (deps.Join "uploads" header.Filename)) with
                        documents := s.db.pool.documents ++
                          [{ id := s.db.pool.genID s.db.pool.seq, user_id := claims.UserID,
                             original_name := header.Filename,
                             content_type := header.ContentType,
                             storage_path := deps.Join "uploads" header.Filename,
                             extracted_markdown := none, status := "uploaded",
                             uploaded_at := s.db.pool.now, updated_at := s.db.pool.now }],
                        seq := s.db.pool.seq + 1 } } }) := by
  rcases withAuth_cases deps (handleDocuments deps) s r with
    ⟨scheme, tok, claims, hauth, hn, -, hparse, heq⟩ | ⟨-, msg, hmsg⟩
  · rw [heq] at hok ⊢
    by_cases hpost : r.Method = "POST"
    · have hd : handleDocuments deps s { r with ctxUserID := some claims.UserID } =
          handleUploadDocument deps s { r with ctxUserID := some claims.UserID } := by
        unfold handleDocuments
        rw [if_pos hpost]
      rw [hd] at hok ⊢
      by_cases hw : ∃ userID form header,
          ({ r with ctxUserID := some claims.UserID } : Request).ctxUserID = some userID ∧
          ({ r with ctxUserID := some claims.UserID } : Request).Form = some form ∧
          FormFile form "file" = some header ∧ deps.MkdirAll "uploads" = none ∧
          deps.Create (deps.Join "uploads" header.Filename) = none ∧
          deps.ReadFrom (deps.Join "uploads" header.Filename) header.Content = none
      · obtain ⟨userID, form, header, hctx, hform, hfile, hmk, hcr, hrd⟩ := hw
        have hu : claims.UserID = userID := by simpa using hctx
        subst hu
        rw [handleUploadDocument_written deps s _ claims.UserID form header hctx hform hfile
          hmk hcr hrd] at hok ⊢
        cases hf : s.db.pool.fault (.createDocument claims.UserID header.Filename
            header.ContentType (deps.Join "uploads" header.Filename)) with
        | some e =>
          rw [CreateDocument_fault s.db _ _ _ _ e hf] at hok
          simp [httpError] at hok
        | none =>
          rw [CreateDocument_ok s.db _ _ _ _ hf]
          exact ⟨scheme, tok, claims, form, header, hauth, hn, hparse, hform, hfile, rfl⟩
      · have h2 := (handleUploadDocument_not_written deps s _ hw).2
        rcases h2 with h2 | h2 | h2 <;> rw [h2] at hok <;> cases hok
    · by_cases hget : r.Method = "GET"
      · have hd : handleDocuments deps s { r with ctxUserID := some claims.UserID } =
            handleListDocuments s { r with ctxUserID := some claims.UserID } := by
          unfold handleDocuments
          rw [if_neg hpost, if_pos hget]
        rw [hd] at hok
        exact absurd hok (handleListDocuments_status s _)
      · have hd : handleDocuments deps s { r with ctxUserID := some claims.UserID } =
            (writeHeaderOnly 405, s) := by
          unfold handleDocuments
          rw [if_neg hpost, if_neg hget]
        rw [hd] at hok
        cases hok
  · rw [hmsg] at hok
    simp [httpError] at hok

/-- C9: every upload answered 201 through the middleware carried a bearer token
that verified (`jwt.ParseWithClaims` parsed it under the signing secret of the
server without error and marked it valid), and the owner is the user id in the
claims of that token: CreateDocument was called once, with that user id as
owner; the one row added has that user id and the status `uploaded`; so does
the document in the response. The form plays no part in the owner: any other
request with the same Authorization header (whatever its form, body, method or
context) that is answered 201 adds a row with the same owner. -/
theorem upload_owner_is_token_user (deps : Deps) (s : Server) (r : Request)
    (hok : (withAuth deps (handleDocuments deps) s r).1.StatusCode = 201) :
    ∃ (scheme tok : String) (token : Token) (header : FilePart) (doc : Document),
      r.Authorization = some (scheme ++ " " ++ tok) ∧ ' ' ∉ scheme.data ∧
      deps.ParseWithClaims tok s.jwtSecret = .ok token ∧ token.Valid = true ∧
      (withAuth deps (handleDocuments deps) s r).2.db.pool.log =
        s.db.pool.log ++ [.createDocument token.Claims.UserID header.Filename
          header.ContentType (deps.Join "uploads" header.Filename)] ∧
      (∃ row, (withAuth deps (handleDocuments deps) s r).2.db.pool.documents =
          s.db.pool.documents ++ [row] ∧
        row.user_id = token.Claims.UserID ∧ row.status = "uploaded") ∧
      ((withAuth deps (handleDocuments deps) s r).1 = writeJSON 201 (some (Document.toJson doc)) ∧
        doc.UserID = token.Claims.UserID ∧ doc.Status = "uploaded") ∧
      (∀ r2 : Request, r2.Authorization = r.Authorization →
        (withAuth deps (handleDocuments deps) s r2).1.StatusCode = 201 →
        ∃ row2, (withAuth deps (handleDocuments deps) s r2).2.db.pool.documents =
            s.db.pool.documents ++ [row2] ∧
          row2.user_id = token.Claims.UserID ∧ row2.status = "uploaded") := by
  obtain ⟨scheme, tok, claims, form, header, hauth, hn, hparse, -, -, heq⟩ :=
    upload_via_auth_created deps s r hok
  obtain ⟨token, hpw, hvalid, hcl⟩ := (parseToken_ok_iff deps s tok claims).mp hparse
  subst hcl
  refine ⟨scheme, tok, token, header,
    { ID := s.db.pool.genID s.db.pool.seq, UserID := token.Claims.UserID,
      OriginalName := header.Filename, ContentType := header.ContentType,
      StoragePath := deps.Join "uploads" header.Filename,
      ExtractedMarkdown := "", Status := "uploaded",
      UploadedAt := s.db.pool.now, UpdatedAt := s.db.pool.now },
    hauth, hn, hpw, hvalid, ?_,
    ⟨{ id := s.db.pool.genID s.db.pool.seq, user_id := token.Claims.UserID,
       original_name := header.Filename, content_type := header.ContentType,
       storage_path := deps.Join "uploads" header.Filename,
       extracted_markdown := none, status := "uploaded",
       uploaded_at := s.db.pool.now, updated_at := s.db.pool.now }, ?_, rfl, rfl⟩,
    ⟨?_, rfl, rfl⟩, ?_⟩
  · rw [heq]; rfl
  · rw [heq]
  · rw [heq]
  · intro r2 h2 hok2
    obtain ⟨scheme2, tok2, claims2, form2, header2, hauth2, hn2, hparse2, -, -, heq2⟩ :=
      upload_via_auth_created deps s r2 hok2
    have hsame : scheme2 ++ " " ++ tok2 = scheme ++ " " ++ tok := by
      rw [h2, hauth] at hauth2
      exact (Option.some.inj hauth2).symm
    have h1 := (SplitN_pair (scheme ++ " " ++ tok) scheme tok).mpr ⟨rfl, hn⟩
    have h3 := (SplitN_pair (scheme2 ++ " " ++ tok2) scheme2 tok2).mpr ⟨rfl, hn2⟩
    rw [hsame, h1] at h3
    simp only [List.cons.injEq, and_true] at h3
    obtain ⟨-, htok⟩ := h3
    subst htok
    rw [hparse] at hparse2
    have hc : token.Claims = claims2 := by injection hparse2
    subst hc
    exact ⟨_, by rw [heq2], rfl, rfl⟩

/-- C9 at concrete requests: the token `T` verifies under the secret and belongs
to `u1`; the form names `mallory` in a text field and the incoming context
names `mallory` too; the upload is answered 201, the row added is owned by
`u1`, and the conclusion of the theorem holds for it. The same upload with the
token `forged`, which does not verify, is answered 401 and adds no row. -/
theorem upload_owner_is_token_user_witness :
    (withAuth sampleDeps (handleDocuments sampleDeps) (sampleServer [] [])
        (uploadRequest [("file", reportPart)])).1.StatusCode = 201 ∧
    (withAuth sampleDeps (handleDocuments sampleDeps) (sampleServer [] [])
        (uploadRequest [("file", reportPart)])).2.db.pool.documents.map
      (fun row => (row.user_id, row.status)) = [("u1", "uploaded")] ∧
    (withAuth sampleDeps (handleDocuments sampleDeps) (sampleServer [] [])
        { uploadRequest [("file", reportPart)] with
          Authorization := some "Bearer forged" }).1.StatusCode = 401 ∧
    (withAuth sampleDeps (handleDocuments sampleDeps) (sampleServer [] [])
        { uploadRequest [("file", reportPart)] with
          Authorization := some "Bearer forged" }).2.db.pool.documents = [] ∧
    ∃ (scheme tok : String) (token : Token) (header : FilePart) (doc : Document),
      (uploadRequest [("file", reportPart)]).Authorization = some (scheme ++ " " ++ tok) ∧
      ' ' ∉ scheme.data ∧
      sampleDeps.ParseWithClaims tok (sampleServer [] []).jwtSecret = .ok token ∧
      token.Valid = true ∧
      (withAuth sampleDeps (handleDocuments sampleDeps) (sampleServer [] [])
          (uploadRequest [("file", reportPart)])).2.db.pool.log =
        (sampleServer [] []).db.pool.log ++
          [.createDocument token.Claims.UserID header.Filename header.ContentType
            (sampleDeps.Join "uploads" header.Filename)] ∧
      (∃ row, (withAuth sampleDeps (handleDocuments sampleDeps) (sampleServer [] [])
            (uploadRequest [("file", reportPart)])).2.db.pool.documents =
          (sampleServer [] []).db.pool.documents ++ [row] ∧
        row.user_id = token.Claims.UserID ∧ row.status = "uploaded") ∧
      ((withAuth sampleDeps (handleDocuments sampleDeps) (sampleServer [] [])
            (uploadRequest [("file", reportPart)])).1 =
          writeJSON 201 (some (Document.toJson doc)) ∧
        doc.UserID = token.Claims.UserID ∧ doc.Status = "uploaded") ∧
      (∀ r2 : Request, r2.Authorization = (uploadRequest [("file", reportPart)]).Authorization →
        (withAuth sampleDeps (handleDocuments sampleDeps) (sampleServer [] []) r2).1.StatusCode
          = 201 →
        ∃ row2, (withAuth sampleDeps (handleDocuments sampleDeps) (sampleServer [] [])
              r2).2.db.pool.documents =
            (sampleServer [] []).db.pool.documents ++ [row2] ∧
          row2.user_id = token.Claims.UserID ∧ row2.status = "uploaded") :=
  ⟨rfl, rfl, rfl, rfl, upload_owner_is_token_user sampleDeps (sampleServer [] [])
    (uploadRequest [("file", reportPart)]) rfl⟩

/-! ## GET /user/insights -/

/-- The user record GetUserByID returns never carries patient insights: the
statement selects five columns and `Scan` fills five fields. -/
theorem GetUserByID_no_insights (s : Store) (id : String) (user : User)
    (h : (s.GetUserByID id).1 = .ok user) : user.PatientInsights = none := by
  unfold Store.GetUserByID Pool.QueryRow at h
  cases hf : s.pool.fault (.getUserByID id) with
  | some msg => simp [hf] at h
  | none =>
    cases hl : s.pool.users.filter (fun u => u.id == id) with
    | nil => simp [hf, hl] at h
    | cons x xs =>
      simp only [hf, hl, List.map_cons] at h
      injection h with h
      rw [← h]
      rfl

/-- C13 (what the code does): for an authenticated user whose row exists, the
user query not failing, GET /user/insights answers 200 with `status` = `none`
and no `insights_html`, whatever patient insights are stored for the user:
GetUserByID does not select them, so the `PatientInsights` the handler tests is
always nil. -/
theorem patient_insights_never_loaded (s : Server) (r : Request) (userID : String)
    (hm : r.Method = "GET") (hctx : r.ctxUserID = some userID)
    (hfault : s.db.pool.fault (.getUserByID userID) = none)
    (hex : ∃ u ∈ s.db.pool.users, u.id = userID) :
    (handleGetPatientInsights s r).1 =
      { StatusCode := 200, ContentType := "application/json",
        Body := .json (.obj [("status", .str "none")]) } := by
  obtain ⟨u, hu, hid⟩ := hex
  have hmem : u ∈ s.db.pool.users.filter (fun x => x.id == userID) := by
    simp [List.mem_filter, hu, hid]
  cases hl : s.db.pool.users.filter (fun x => x.id == userID) with
  | nil => rw [hl] at hmem; cases hmem
  | cons x xs =>
    simp [handleGetPatientInsights, hm, userIDFromContext, hctx, Store.GetUserByID,
      Pool.QueryRow, hfault, hl, UserRow.scan, writeJSON, patientInsightResponse.toJson,
      omitemptyField]

/-- C13 at a concrete store: the row of `u-carol` stores the patient insights
`<p>summary</p>`, and her GET /user/insights is answered with `status` = `none`. -/
theorem patient_insights_never_loaded_witness :
    carolRow.patient_insights = some "<p>summary</p>" ∧
    (handleGetPatientInsights (userServer [carolRow]) (requestAs "GET" "u-carol")).1 =
      { StatusCode := 200, ContentType := "application/json",
        Body := .json (.obj [("status", .str "none")]) } :=
  ⟨rfl, patient_insights_never_loaded (userServer [carolRow]) (requestAs "GET" "u-carol")
    "u-carol" rfl rfl rfl ⟨carolRow, by decide, rfl⟩⟩

/-! ## Session tokens -/

/-- The claims generateToken signs: the user id, the first clock reading cut to
whole seconds, and the second clock reading plus 24 hours cut to whole seconds. -/
theorem generateToken_claims (issuer : Issuer) (s : Server) (now : Nat → Time)
    (userID : String) :
    generateToken issuer s now userID =
      issuer.SignedString
        { UserID := userID,
          IssuedAt := some (NewNumericDate (now 0)),
          ExpiresAt := some (NewNumericDate (now 1 + 24 * Hour)) } s.jwtSecret := rfl

/-- Cutting to whole seconds commutes with adding 24 hours. -/
theorem NewNumericDate_add_day (t : Time) :
    NewNumericDate (t + 24 * Hour) = NewNumericDate t + 24 * Hour := by
  unfold NewNumericDate Hour
  have h : (t + 24 * (3600 * Second)) % Second = t % Second := by
    rw [show 24 * (3600 * Second) = Second * 86400 by ring, Nat.add_mul_mod_self_left]
  rw [h]
  have hle := Nat.mod_le t Second
  exact Nat.sub_add_comm hle

/-- When both clock readings fall in the same second, the expiry signed is the
issued-at plus 24 hours. -/
theorem generateToken_same_second (issuer : Issuer) (s : Server) (now : Nat → Time)
    (userID : String) (h : NewNumericDate (now 1) = NewNumericDate (now 0)) :
    generateToken issuer s now userID =
      issuer.SignedString
        { UserID := userID,
          IssuedAt := some (NewNumericDate (now 0)),
          ExpiresAt := some (NewNumericDate (now 0) + 24 * Hour) } s.jwtSecret := by
  rw [generateToken_claims, NewNumericDate_add_day, h]

/-- C12 (what the code does): generateToken reads the clock twice. With a first
reading one nanosecond before a full second and a second reading at that full
second, the claims signed for any user carry that user id, the issued-at
1700000000 s and the expiry 1700000001 s + 24 h, which is 24 hours and one
second after the issued-at. -/
theorem generateToken_expiry_from_second_reading (issuer : Issuer) (s : Server)
    (userID : String) :
    generateToken issuer s clockAcrossSecond userID =
      issuer.SignedString
        { UserID := userID,
          IssuedAt := some (1700000000 * Second),
          ExpiresAt := some (1700000000 * Second + 24 * Hour + Second) } s.jwtSecret ∧
    1700000000 * Second + 24 * Hour + Second ≠ 1700000000 * Second + 24 * Hour := by
  constructor
  · rw [generateToken_claims]
    have h0 : NewNumericDate (clockAcrossSecond 0) = 1700000000 * Second := by decide
    have h1 : NewNumericDate (clockAcrossSecond 1 + 24 * Hour) =
        1700000000 * Second + 24 * Hour + Second := by decide
    rw [h0, h1]
  · decide

/-! ## POST /login -/

/-- The first match of a search is the head of the matching rows. -/
theorem find?_eq_head?_filter {α : Type} (p : α → Bool) (l : List α) :
    l.find? p = (l.filter p).head? := by
  induction l with
  | nil => rfl
  | cons a l ih =>
    cases h : p a
    · simp only [List.find?, List.filter, h]
      exact ih
    · simp only [List.find?, List.filter, h, List.head?_cons]

/-- The upsert for a phone number that one row has, when the statement does not
fail: that row gets a new last login and is returned; it stays the only row of
the phone number. -/
theorem UpsertUserByPhone_existing (s : Store) (phone : String) (fullName : Option String)
    (u : UserRow)
    (hfault : s.pool.fault (.upsertUserByPhone phone fullName) = none)
    (hu : s.pool.users.filter (fun x => x.phone_number == phone) = [u]) :
    (s.UpsertUserByPhone phone fullName).1 =
      .ok ({ u with last_login_at := some s.pool.now } : UserRow).scan ∧
    (s.UpsertUserByPhone phone fullName).2.pool.users.filter
        (fun x => x.phone_number == phone) =
      [{ u with last_login_at := some s.pool.now }] ∧
    (s.UpsertUserByPhone phone fullName).2.pool.fault = s.pool.fault := by
  have hfind : s.pool.users.find? (fun x => x.phone_number == phone) = some u := by
    rw [find?_eq_head?_filter, hu]; rfl
  have hup : u.phone_number = phone := by
    have hm : u ∈ s.pool.users.filter (fun x => x.phone_number == phone) := by
      rw [hu]; exact List.mem_singleton_self u
    simpa using (List.mem_filter.mp hm).2
  refine ⟨?_, ?_, ?_⟩
  · simp only [Store.UpsertUserByPhone, hfault, hfind]
  · simp only [Store.UpsertUserByPhone, hfault, hfind]
    rw [List.filter_map]
    have hcomp : ((fun x : UserRow => x.phone_number == phone) ∘
        (fun x : UserRow => if x.phone_number == phone then
            { x with last_login_at := some s.pool.now } else x)) =
        (fun x : UserRow => x.phone_number == phone) := by
      funext x
      simp only [Function.comp]
      split_ifs <;> rfl
    rw [hcomp, hu]
    simp [hup]
  · simp only [Store.UpsertUserByPhone, hfault, hfind]
    rfl

/-- The upsert for a phone number that no row has, when the statement does not
fail: one row is inserted and returned; it is the only row of the phone number. -/
theorem UpsertUserByPhone_new (s : Store) (phone : String) (fullName : Option String)
    (hfault : s.pool.fault (.upsertUserByPhone phone fullName) = none)
    (hu : s.pool.users.filter (fun x => x.phone_number == phone) = []) :
    (s.UpsertUserByPhone phone fullName).1 =
      .ok ({ id := s.pool.genID s.pool.seq, phone_number := phone, full_name := fullName,
             created_at := s.pool.now, last_login_at := some s.pool.now,
             patient_insights := none } : UserRow).scan ∧
    (s.UpsertUserByPhone phone fullName).2.pool.users.filter
        (fun x => x.phone_number == phone) =
      [{ id := s.pool.genID s.pool.seq, phone_number := phone, full_name := fullName,
         created_at := s.pool.now, last_login_at := some s.pool.now,
         patient_insights := none }] ∧
    (s.UpsertUserByPhone phone fullName).2.pool.fault = s.pool.fault := by
  have hfind : s.pool.users.find? (fun x => x.phone_number == phone) = none := by
    rw [find?_eq_head?_filter, hu]; rfl
  refine ⟨?_, ?_, ?_⟩
  · simp only [Store.UpsertUserByPhone, hfault, hfind]
  · simp only [Store.UpsertUserByPhone, hfault, hfind]
    rw [List.filter_append, hu]
    simp
  · simp only [Store.UpsertUserByPhone, hfault, hfind]
    rfl

/-- A login whose method, body and phone number pass the checks: the response and
the server afterwards, by the outcome of the upsert and of the signing. -/
theorem handleLogin_valid (issuer : Issuer) (now : Nat → Time) (s : Server) (r : Request)
    (req : loginRequest)
    (hm : r.Method = "POST") (hb : r.LoginBody = some req)
    (hnb : TrimSpace req.PhoneNumber ≠ "") (user : User) (tok : String)
    (hup : (s.db.UpsertUserByPhone req.PhoneNumber req.FullName).1 = .ok user)
    (htok : generateToken issuer s now user.ID = .ok tok) :
    handleLogin issuer now s r =
      (writeJSON 200 (some (loginResponse.toJson { Token := tok, User := user })),
       { s with db := (s.db.UpsertUserByPhone req.PhoneNumber req.FullName).2 }) := by
  have hmn : ¬ r.Method ≠ "POST" := by simp [hm]
  cases hq : s.db.UpsertUserByPhone req.PhoneNumber req.FullName with
  | mk out db1 =>
    rw [hq] at hup
    simp only at hup
    subst hup
    simp only [handleLogin, hmn, if_false, hb, hnb, hq, htok]

/-- One successful login with a phone number that is not blank and that at most
one row has: the answer is 200 with the user of the single row the phone number
has afterwards; if it had a row before, the id is the id of that row. Faults
and signing key are as before. -/
theorem handleLogin_step (issuer : Issuer) (now : Nat → Time) (s : Server) (r : Request)
    (p : String) (fn : Option String)
    (hm : r.Method = "POST")
    (hb : r.LoginBody = some { PhoneNumber := p, FullName := fn })
    (hnb : TrimSpace p ≠ "")
    (hlen : (s.db.pool.users.filter (fun u => u.phone_number == p)).length ≤ 1)
    (hfault : ∀ fn0, s.db.pool.fault (.upsertUserByPhone p fn0) = none)
    (hsign : ∀ claims, ∃ tok, issuer.SignedString claims s.jwtSecret = .ok tok) :
    ∃ (tok : String) (user : User) (row : UserRow),
      (handleLogin issuer now s r).1 =
        writeJSON 200 (some (loginResponse.toJson { Token := tok, User := user })) ∧
      user.ID = row.id ∧ user.PhoneNumber = p ∧
      (handleLogin issuer now s r).2.db.pool.users.filter (fun u => u.phone_number == p) =
        [row] ∧
      (handleLogin issuer now s r).2.db.pool.fault = s.db.pool.fault ∧
      (handleLogin issuer now s r).2.jwtSecret = s.jwtSecret ∧
      (∀ u, s.db.pool.users.filter (fun u => u.phone_number == p) = [u] → row.id = u.id) := by
  cases hl : s.db.pool.users.filter (fun u => u.phone_number == p) with
  | nil =>
    obtain ⟨hup, hfil, hflt⟩ := UpsertUserByPhone_new s.db p fn (hfault fn) hl
    obtain ⟨tok, htok⟩ := hsign
      { UserID := s.db.pool.genID s.db.pool.seq,
        IssuedAt := some (NewNumericDate (now 0)),
        ExpiresAt := some (NewNumericDate (now 1 + 24 * Hour)) }
    have hstep := handleLogin_valid issuer now s r { PhoneNumber := p, FullName := fn }
      hm hb hnb _ tok hup htok
    refine ⟨tok,
      ({ id := s.db.pool.genID s.db.pool.seq, phone_number := p, full_name := fn,
         created_at := s.db.pool.now, last_login_at := some s.db.pool.now,
         patient_insights := none } : UserRow).scan,
      { id := s.db.pool.genID s.db.pool.seq, phone_number := p, full_name := fn,
        created_at := s.db.pool.now, last_login_at := some s.db.pool.now,
        patient_insights := none },
      by rw [hstep], rfl, rfl, by rw [hstep]; exact hfil,
      by rw [hstep]; exact hflt, by rw [hstep], ?_⟩
    intro u hu
    cases hu
  | cons u rest =>
    have hrest : rest = [] := by
      rw [hl] at hlen
      cases rest with
      | nil => rfl
      | cons a b => simp at hlen
    subst hrest
    obtain ⟨hup, hfil, hflt⟩ := UpsertUserByPhone_existing s.db p fn u (hfault fn) hl
    have hph : u.phone_number = p := by
      have hmem : u ∈ s.db.pool.users.filter (fun x => x.phone_number == p) := by
        rw [hl]; exact List.mem_singleton_self u
      simpa using (List.mem_filter.mp hmem).2
    obtain ⟨tok, htok⟩ := hsign
      { UserID := u.id, IssuedAt := some (NewNumericDate (now 0)),
        ExpiresAt := some (NewNumericDate (now 1 + 24 * Hour)) }
    have hstep := handleLogin_valid issuer now s r { PhoneNumber := p, FullName := fn }
      hm hb hnb _ tok hup htok
    refine ⟨tok, ({ u with last_login_at := some s.db.pool.now } : UserRow).scan,
      { u with last_login_at := some s.db.pool.now },
      by rw [hstep], rfl, hph, by rw [hstep]; exact hfil,
      by rw [hstep]; exact hflt, by rw [hstep], ?_⟩
    intro u0 hu0
    injection hu0 with h1 _
    rw [← h1]

/-- Logins with a phone number that exactly one row has: after any sequence of
them the phone number still has exactly one row, with the id it had, and every
login answered 200 with that id. -/
theorem serveLogins_known_user (issuer : Issuer) (p : String)
    (hnb : TrimSpace p ≠ "") (evs : List (Request × (Nat → Time))) :
    ∀ (s : Server) (u : UserRow),
      (∀ ev ∈ evs, ev.1.Method = "POST" ∧
        ∃ fn, ev.1.LoginBody = some { PhoneNumber := p, FullName := fn }) →
      s.db.pool.users.filter (fun x => x.phone_number == p) = [u] →
      (∀ fn0, s.db.pool.fault (.upsertUserByPhone p fn0) = none) →
      (∀ claims, ∃ tok, issuer.SignedString claims s.jwtSecret = .ok tok) →
      ∃ row, (serveLogins issuer s evs).2.db.pool.users.filter
            (fun x => x.phone_number == p) = [row] ∧
        row.id = u.id ∧
        ∀ resp ∈ (serveLogins issuer s evs).1, ∃ (tok : String) (user : User),
          resp = writeJSON 200 (some (loginResponse.toJson { Token := tok, User := user })) ∧
          user.ID = u.id ∧ user.PhoneNumber = p := by
  induction evs with
  | nil =>
    intro s u _ hu _ _
    exact ⟨u, hu, rfl, fun resp hr => by cases hr⟩
  | cons ev rest ih =>
    intro s u hev hu hfault hsign
    obtain ⟨hm, fn, hb⟩ := hev ev (List.mem_cons_self ev rest)
    obtain ⟨tok, user, row1, hresp, hid, hph, hfil, hflt, hsec, hsame⟩ :=
      handleLogin_step issuer ev.2 s ev.1 p fn hm hb hnb (by rw [hu]; simp) hfault hsign
    have hrow1 : row1.id = u.id := hsame u hu
    obtain ⟨row, hfinal, hrid, hall⟩ := ih (handleLogin issuer ev.2 s ev.1).2 row1
      (fun e he => hev e (List.mem_cons_of_mem ev he)) hfil
      (fun fn0 => by rw [hflt]; exact hfault fn0)
      (fun claims => by rw [hsec]; exact hsign claims)
    refine ⟨row, hfinal, by rw [hrid, hrow1], ?_⟩
    intro resp hr
    simp only [serveLogins, List.mem_cons] at hr
    rcases hr with hr | hr
    · exact ⟨tok, user, by rw [hr, hresp], by rw [hid, hrow1], hph⟩
    · obtain ⟨tok2, user2, h1, h2, h3⟩ := hall resp hr
      exact ⟨tok2, user2, h1, by rw [h2, hrow1], h3⟩

/-- C11: take a phone number `p` that is not blank and a store in which at most
one user row has it (the uniqueness the statement conflicts on), the upsert for
`p` not failing and the signing succeeding. After any non-empty sequence of
logins with `p`, exactly one user row has phone number `p`, and every login of
the sequence answered 200 with the id of that row. A login whose phone number
is empty or blank is answered 400 and leaves the server, hence every user row,
as it was. -/
theorem login_upsert_contract (issuer : Issuer) (s : Server) :
    (∀ (p : String) (evs : List (Request × (Nat → Time))),
      TrimSpace p ≠ "" → evs ≠ [] →
      (∀ ev ∈ evs, ev.1.Method = "POST" ∧
        ∃ fn, ev.1.LoginBody = some { PhoneNumber := p, FullName := fn }) →
      (s.db.pool.users.filter (fun u => u.phone_number == p)).length ≤ 1 →
      (∀ fn0, s.db.pool.fault (.upsertUserByPhone p fn0) = none) →
      (∀ claims, ∃ tok, issuer.SignedString claims s.jwtSecret = .ok tok) →
      ∃ row, (serveLogins issuer s evs).2.db.pool.users.filter
            (fun u => u.phone_number == p) = [row] ∧
        ∀ resp ∈ (serveLogins issuer s evs).1, ∃ (tok : String) (user : User),
          resp = writeJSON 200 (some (loginResponse.toJson { Token := tok, User := user })) ∧
          user.ID = row.id ∧ user.PhoneNumber = p) ∧
    (∀ (r : Request) (now : Nat → Time) (req : loginRequest),
      r.Method = "POST" → r.LoginBody = some req → TrimSpace req.PhoneNumber = "" →
      handleLogin issuer now s r = (httpError "phone_number is required" 400, s)) := by
  constructor
  · intro p evs hnb hne hev hlen hfault hsign
    cases evs with
    | nil => exact absurd rfl hne
    | cons ev rest =>
      obtain ⟨hm, fn, hb⟩ := hev ev (List.mem_cons_self ev rest)
      obtain ⟨tok, user, row1, hresp, hid, hph, hfil, hflt, hsec, -⟩ :=
        handleLogin_step issuer ev.2 s ev.1 p fn hm hb hnb hlen hfault hsign
      obtain ⟨row, hfinal, hrid, hall⟩ := serveLogins_known_user issuer p hnb rest
        (handleLogin issuer ev.2 s ev.1).2 row1
        (fun e he => hev e (List.mem_cons_of_mem ev he)) hfil
        (fun fn0 => by rw [hflt]; exact hfault fn0)
        (fun claims => by rw [hsec]; exact hsign claims)
      refine ⟨row, hfinal, ?_⟩
      intro resp hr
      simp only [serveLogins, List.mem_cons] at hr
      rcases hr with hr | hr
      · exact ⟨tok, user, by rw [hr, hresp], by rw [hid, hrid], hph⟩
      · obtain ⟨tok2, user2, h1, h2, h3⟩ := hall resp hr
        exact ⟨tok2, user2, h1, by rw [h2, hrid], h3⟩
  · intro r now req hm hb hblank
    have hmn : ¬ r.Method ≠ "POST" := by simp [hm]
    simp only [handleLogin, hmn, if_false, hb, hblank, if_true]

/-- C11 at a concrete store with no user: two logins with `+15551234567` leave
one row of that phone number, and a login with a blank phone number is answered
400 with the server untouched. -/
theorem login_upsert_contract_witness :
    (∃ row, (serveLogins sampleIssuer (userServer [])
          [(loginRequestFor "+15551234567", steadyClock),
           (loginRequestFor "+15551234567", clockAcrossSecond)]).2.db.pool.users.filter
          (fun u => u.phone_number == "+15551234567") = [row] ∧
      ∀ resp ∈ (serveLogins sampleIssuer (userServer [])
          [(loginRequestFor "+15551234567", steadyClock),
           (loginRequestFor "+15551234567", clockAcrossSecond)]).1,
        ∃ (tok : String) (user : User),
          resp = writeJSON 200 (some (loginResponse.toJson { Token := tok, User := user })) ∧
          user.ID = row.id ∧ user.PhoneNumber = "+15551234567") ∧
    handleLogin sampleIssuer steadyClock (userServer []) (loginRequestFor "  ") =
      (httpError "phone_number is required" 400, userServer []) :=
  ⟨(login_upsert_contract sampleIssuer (userServer [])).1 "+15551234567"
      [(loginRequestFor "+15551234567", steadyClock),
       (loginRequestFor "+15551234567", clockAcrossSecond)]
      (by decide) (by simp)
      (by
        intro ev hev
        simp only [List.mem_cons, List.mem_singleton, List.not_mem_nil, or_false] at hev
        rcases hev with h | h <;> subst h <;> exact ⟨rfl, none, rfl⟩)
      (by decide) (fun _ => rfl) (fun claims => ⟨_, rfl⟩),
   (login_upsert_contract sampleIssuer (userServer [])).2 (loginRequestFor "  ")
      steadyClock { PhoneNumber := "  ", FullName := none } rfl rfl (by decide)⟩

end MedSum
